import Mathlib

/-!
Verification of the ARM JIT expression compiler.

A shallow embedding of `src/JIT_compiler.cpp` / `include/JIT_compiler.hpp`:
the parsed expression tree (`Node`), the intermediate-instruction emitter
(`compile_`, `add_header`, `add_footer`), the translation to raw A32 words
(`GetCompiledBinary`), and a word-granular operational model of the A32
instructions the translator can produce (`step`/`steps`), together with
theorems about the pipeline.

Machine integers are modelled as `Nat` with explicit `% 2 ^ 32`
(written `% 4294967296`) where the C++ wraps; fallible C++ paths
(`assert(false)`, `std::map::at`, `std::stoi` / `std::stoul` exceptions)
are modelled as `Option`-valued failure (`none`).
-/

namespace JIT

/-! ## Strings of numbers

`handle_variable` / `handle_function` render a `void *` with
`operator<<`, which on the target prints a lowercase `0x`-prefixed hex
number; `ExpressionParser::ParseConstant` renders an `int` with
`std::hex`; `GetCompiledBinary` re-reads payload strings with
`std::stoul(str, nullptr, 0)` (base auto-detected, range `unsigned long`
= 32 bits on the 32-bit ARM target). -/

/-- Value of one hex digit character, `none` for anything else. -/
def hexVal? (c : Char) : Option Nat :=
  if '0' ≤ c ∧ c ≤ '9' then some (c.toNat - 48)
  else if 'a' ≤ c ∧ c ≤ 'f' then some (c.toNat - 87)
  else if 'A' ≤ c ∧ c ≤ 'F' then some (c.toNat - 55)
  else none

/-- Lowercase digit character for a value `0`–`15`, as printed by
`std::hex` / `%p`. -/
def hexDigitChar (d : Nat) : Char :=
  if d < 10 then Char.ofNat (48 + d) else Char.ofNat (87 + d)

/-- Most-significant-first base-16 digit characters of `n`, with enough
fuel; `hexDigitsAux fuel n` is the digit string of `n` whenever
`n < 16 ^ fuel` (and `[]` for `n = 0`). -/
def hexDigitsAux : Nat → Nat → List Char
  | 0, _ => []
  | fuel + 1, n =>
    if n = 0 then [] else hexDigitsAux fuel (n / 16) ++ [hexDigitChar (n % 16)]

/-- The text `std::hex` printing produces for a 32-bit value: lowercase
hex digits, no leading zeros, `"0"` for zero. -/
def hexStr (n : Nat) : String :=
  if n = 0 then "0" else String.mk (hexDigitsAux 8 n)

/-- The text `operator<<(std::ostream, void *)` produces for an
address: `0x` followed by lowercase hex digits. -/
def renderAddr (a : Nat) : String :=
  "0x" ++ hexStr a

/-- Accumulating positional parse of digit characters in base `b`;
fails on a character that is not a digit below `b`. -/
def parseBaseAux (b : Nat) : List Char → Nat → Option Nat
  | [], acc => some acc
  | c :: cs, acc =>
    match hexVal? c with
    | some d => if d < b then parseBaseAux b cs (acc * b + d) else none
    | none => none

/-- Parse a non-empty run of base-`b` digits. -/
def parseBaseList (b : Nat) (cs : List Char) : Option Nat :=
  if cs.isEmpty then none else parseBaseAux b cs 0

/-- Model of `std::stoul(s, nullptr, 0)` on the 32-bit target: auto-detected
base (`0x` hex, leading `0` octal, else decimal), failure (an
exception) for an empty digit run or a value outside `unsigned long` =
32 bits. -/
def stoul32 (s : String) : Option Nat :=
  let core : Option Nat :=
    match s.data with
    | '0' :: 'x' :: rest => parseBaseList 16 rest
    | '0' :: 'X' :: rest => parseBaseList 16 rest
    | '0' :: rest => if rest.isEmpty then some 0 else parseBaseList 8 rest
    | cs => parseBaseList 10 cs
  core.bind fun v => if v < 4294967296 then some v else none

/-- Model of `ExpressionParser::ParseConstant` (JIT_compiler.cpp:194-202) on an
all-digit leaf range: `std::stoi` reads the decimal value and throws
`std::out_of_range` — the Constant-overflow failure — beyond
`INT_MAX = 2 ^ 31 - 1` (`int` is 32 bits signed on the target); an
accepted value is stored as `"0x" + std::hex` rendering. -/
def ParseConstant (dec_view : String) : Option String :=
  match parseBaseList 10 dec_view.data with
  | none => none
  | some v => if 2 ^ 31 - 1 < v then none else some ("0x" ++ hexStr v)

theorem stoul32_lt {s : String} {v : Nat} (h : stoul32 s = some v) :
    v < 4294967296 := by
  unfold stoul32 at h
  rcases hcore : (match s.data with
    | '0' :: 'x' :: rest => parseBaseList 16 rest
    | '0' :: 'X' :: rest => parseBaseList 16 rest
    | '0' :: rest => if rest.isEmpty then some 0 else parseBaseList 8 rest
    | cs => parseBaseList 10 cs) with _ | w
  · rw [hcore] at h; simp [Option.bind] at h
  · rw [hcore] at h
    simp only [Option.bind] at h
    split at h
    · cases h; assumption
    · cases h

theorem hexVal?_hexDigitChar {d : Nat} (h : d < 16) :
    hexVal? (hexDigitChar d) = some d := by
  interval_cases d <;> rfl

theorem parseBaseAux_hexDigitsAux (fuel : Nat) :
    ∀ n acc rest, n < 16 ^ fuel →
      parseBaseAux 16 (hexDigitsAux fuel n ++ rest) acc =
        parseBaseAux 16 rest (acc * 16 ^ (hexDigitsAux fuel n).length + n) := by
  induction fuel with
  | zero =>
    intro n acc rest hn
    interval_cases n
    simp [hexDigitsAux]
  | succ fuel ih =>
    intro n acc rest hn
    by_cases h0 : n = 0
    · subst h0; simp [hexDigitsAux]
    · have hdiv : n / 16 < 16 ^ fuel := by
        rw [Nat.div_lt_iff_lt_mul (by norm_num)]
        calc n < 16 ^ (fuel + 1) := hn
        _ = 16 ^ fuel * 16 := by ring
      simp only [hexDigitsAux, h0, if_false, List.append_assoc, List.singleton_append]
      rw [ih (n / 16) acc (hexDigitChar (n % 16) :: rest) hdiv]
      have hd : hexVal? (hexDigitChar (n % 16)) = some (n % 16) :=
        hexVal?_hexDigitChar (Nat.mod_lt _ (by norm_num))
      simp only [parseBaseAux, hd, Nat.mod_lt, if_pos (Nat.mod_lt n (by norm_num : (0:Nat) < 16))]
      congr 1
      simp only [List.length_append, List.length_singleton]
      rw [pow_succ]
      have := Nat.div_add_mod n 16
      ring_nf
      omega

theorem hexDigitsAux_ne_nil {fuel n : Nat} (h0 : n ≠ 0) (hf : fuel ≠ 0) :
    hexDigitsAux fuel n ≠ [] := by
  cases fuel with
  | zero => exact absurd rfl hf
  | succ fuel => simp [hexDigitsAux, h0]

/-- Round trip: re-reading a rendered address with `stoul32` gives the
address back, for any 32-bit value. -/
theorem stoul32_renderAddr {a : Nat} (ha : a < 4294967296) :
    stoul32 (renderAddr a) = some a := by
  unfold stoul32 renderAddr
  by_cases h0 : a = 0
  · subst h0; rfl
  · have hdata : ("0x" ++ hexStr a).data = '0' :: 'x' :: hexDigitsAux 8 a := by
      show ("0x").data ++ (hexStr a).data = _
      rw [hexStr, if_neg h0]
      rfl
    rw [hdata]
    have hne : hexDigitsAux 8 a ≠ [] := hexDigitsAux_ne_nil h0 (by norm_num)
    have hlt : a < 16 ^ 8 := by norm_num at ha ⊢; omega
    simp only [parseBaseList, List.isEmpty_iff, hne, if_neg]
    have := parseBaseAux_hexDigitsAux 8 a 0 [] hlt
    rw [List.append_nil] at this
    rw [this]
    simp [parseBaseAux, Option.bind, ha]

/-! ## The parse tree

`struct Node` (JIT_compiler.hpp:37-41) is a tagged node: an
`ExpressionType` tag, an optional `content` string and an owned vector
`sub_expressions`. The emitter's handlers fix the shape per tag —
`handle_plus` / `handle_minus` / `handle_product` read exactly
`sub_expressions[0]` and `[1]`, `handle_const` / `handle_variable` read
no children — so the parsed tree is rendered as a structured inductive
(the `Default` tag never survives parsing; `compile_` would `assert` on
it). Function arguments are a mutually inductive list so that the
recursors stay usable. -/

mutual
inductive Node : Type where
  | constant (content : String) : Node
  | var (content : String) : Node
  | plus (l r : Node) : Node
  | minus (l r : Node) : Node
  | product (l r : Node) : Node
  | function (content : String) (args : NodeList) : Node
inductive NodeList : Type where
  | nil : NodeList
  | cons (head : Node) (tail : NodeList) : NodeList
end

/-- Number of nodes in a `NodeList` (`sub_expressions.size()`). -/
def lenL : NodeList → Nat
  | .nil => 0
  | .cons _ tl => lenL tl + 1

/-! ## Intermediate instructions -/

/-- The enum `ARM_JIT_Compiler::ARM_INSTRUCTION` (JIT_compiler.hpp:86-103). -/
inductive ARM_I : Type where
  | ADD | SUB | MUL | BLX
  | LDR_FROM_NEXT | LDR_REG
  | PUSH_MULT_REG | PUSH_REG
  | POP_MULT_REG | POP_REG
  | WORD_DECL

/-! `ARM_JIT_Compiler::ARM_REGISTER` codes (JIT_compiler.hpp:104-112);
registers are carried as their numeric codes, which is what
`GetCompiledBinary` casts them to. -/

namespace ARM_R
def R0 : Nat := 0
def R1 : Nat := 1
def R2 : Nat := 2
def R3 : Nat := 3
def R4 : Nat := 4
def LR : Nat := 5
def PC : Nat := 6
end ARM_R

/-- The tuple `instruction_t` (JIT_compiler.hpp:118-121): operation, two optional
registers, optional string payload. -/
structure Instr : Type where
  op : ARM_I
  reg1 : Option Nat
  reg2 : Option Nat
  payload : Option String

/-! ## The emitter, stage 1: tree → intermediate list

Each `handle_*` below lists exactly the `instructions_.emplace_back`
calls of the same-named member function (JIT_compiler.cpp:289-549);
`compile_` is the dispatching tree walk, rendered with explicit
accumulation-by-append (the C++ appends to the member vector
`instructions_`). `std::map::at` on a name missing from `address_map_`
throws, and `assert(false)` aborts: both are `none`. -/

/-- The emplacements of `handle_const` (JIT_compiler.cpp:289-322). -/
def handle_const (content : String) : List Instr :=
  [⟨.LDR_FROM_NEXT, some ARM_R.R0, none, some content⟩,
   ⟨.WORD_DECL, none, none, some content⟩,
   ⟨.PUSH_REG, some ARM_R.R0, none, none⟩]

/-- The emplacements of `handle_variable` (JIT_compiler.cpp:324-375), given the rendered
address string of the variable. -/
def handle_variable (address_str : String) : List Instr :=
  [⟨.LDR_FROM_NEXT, some ARM_R.R0, none, some address_str⟩,
   ⟨.WORD_DECL, none, none, some address_str⟩,
   ⟨.LDR_REG, some ARM_R.R0, some ARM_R.R0, none⟩,
   ⟨.PUSH_REG, some ARM_R.R0, none, none⟩]

/-- The three instructions `handle_plus` (JIT_compiler.cpp:377-408)
appends after its children. -/
def plus_tail : List Instr :=
  [⟨.POP_MULT_REG, some ARM_R.R0, some ARM_R.R1, none⟩,
   ⟨.ADD, some ARM_R.R0, some ARM_R.R1, none⟩,
   ⟨.PUSH_REG, some ARM_R.R0, none, none⟩]

/-- The three instructions `handle_minus` (JIT_compiler.cpp:410-441)
appends after its children. -/
def minus_tail : List Instr :=
  [⟨.POP_MULT_REG, some ARM_R.R0, some ARM_R.R1, none⟩,
   ⟨.SUB, some ARM_R.R0, some ARM_R.R1, none⟩,
   ⟨.PUSH_REG, some ARM_R.R0, none, none⟩]

/-- The three instructions `handle_product` (JIT_compiler.cpp:443-475)
appends after its children. -/
def product_tail : List Instr :=
  [⟨.POP_MULT_REG, some ARM_R.R0, some ARM_R.R1, none⟩,
   ⟨.MUL, some ARM_R.R0, some ARM_R.R1, none⟩,
   ⟨.PUSH_REG, some ARM_R.R0, none, none⟩]

/-- The `POP_REG` loop of `handle_function` (JIT_compiler.cpp:513-520):
`for (i = n; i > 0; --i) emplace_back(POP_REG, R0 + i - 1)`. -/
def popRegs : Nat → List Instr
  | 0 => []
  | n + 1 => ⟨.POP_REG, some n, none, none⟩ :: popRegs n

/-- The instructions `handle_function` (JIT_compiler.cpp:477-549)
appends after its arguments' code and the `POP_REG` loop, given the
rendered address of the callee. -/
def function_tail (content : String) : List Instr :=
  [⟨.LDR_FROM_NEXT, some ARM_R.R4, none, some content⟩,
   ⟨.WORD_DECL, none, none, some content⟩,
   ⟨.BLX, some ARM_R.R4, none, none⟩,
   ⟨.PUSH_REG, some ARM_R.R0, none, none⟩]

mutual
/-- The walk `ARM_JIT_Compiler::compile_` (JIT_compiler.cpp:258-287): dispatch
on the node tag; the result is the run of instructions the walk of
this subtree appends to `instructions_`. The name→address directory
`amap` is `address_map_`. -/
def compile_ (amap : String → Option Nat) : Node → Option (List Instr)
  | .constant c => some (handle_const c)
  | .var v =>
    match amap v with
    | none => none
    | some a => some (handle_variable (renderAddr a))
  | .plus l r => do
    pure ((← compile_ amap l) ++ (← compile_ amap r) ++ plus_tail)
  | .minus l r => do
    pure ((← compile_ amap l) ++ (← compile_ amap r) ++ minus_tail)
  | .product l r => do
    pure ((← compile_ amap l) ++ (← compile_ amap r) ++ product_tail)
  | .function f args => do
    let argsCode ← compileArgs amap args
    if lenL args = 0 then none   -- assert(arguments_number > 0)
    else
      match amap f with
      | none => none             -- address_map_.at throws
      | some a =>
        pure (argsCode ++ popRegs (lenL args) ++ function_tail (renderAddr a))
/-- The loop `std::for_each` over `sub_expressions` in `handle_function`
(JIT_compiler.cpp:490-494). -/
def compileArgs (amap : String → Option Nat) : NodeList → Option (List Instr)
  | .nil => some []
  | .cons a tl => do
    pure ((← compile_ amap a) ++ (← compileArgs amap tl))
end

/-- The emplacements of `ARM_JIT_Compiler::add_header` (JIT_compiler.cpp:738-758). -/
def add_header : List Instr :=
  [⟨.PUSH_REG, some ARM_R.LR, none, none⟩,
   ⟨.PUSH_REG, some ARM_R.R4, none, none⟩]

/-- The emplacements of `ARM_JIT_Compiler::add_footer` (JIT_compiler.cpp:760-780). -/
def add_footer : List Instr :=
  [⟨.POP_REG, some ARM_R.R0, none, none⟩,
   ⟨.POP_MULT_REG, some ARM_R.R4, some ARM_R.PC, none⟩]

/-- The driver `ARM_JIT_Compiler::compile` (JIT_compiler.cpp:252-256):
header, body, footer. -/
def compile (amap : String → Option Nat) (t : Node) : Option (List Instr) :=
  (compile_ amap t).map fun body => add_header ++ body ++ add_footer

/-! ## The emitter, stage 2: intermediate list → raw words -/

/-- The per-instruction translation inside the loop of
`ARM_JIT_Compiler::GetCompiledBinary` (JIT_compiler.cpp:553-736): each
intermediate becomes zero or more 32-bit words; every `assert(false)`
arm, and a missing or unreadable `LDR_FROM_NEXT` payload, is `none`.
Register operands go through `static_cast<uint8_t>`, hence `% 256`. -/
def translate (i : Instr) : Option (List Nat) :=
  let reg1 := (i.reg1.getD 0) % 256
  let reg2 := (i.reg2.getD 0) % 256
  match i.op with
  | .ADD =>
    some [(((reg1 <<< 12) ||| (reg2 <<< 16)) ||| (0x4 <<< 21)) ||| (0xe <<< 28)]
  | .SUB =>
    some [(((reg1 <<< 12) ||| (reg2 <<< 16)) ||| (0x2 <<< 21)) ||| (0xe <<< 28)]
  | .MUL =>
    some [((reg2 ||| (0x9 <<< 4)) ||| (reg1 <<< 8) ||| (reg1 <<< 16)) ||| (0xe <<< 28)]
  | .BLX =>
    if reg1 = 4 then some [0xe12fff34] else none
  | .LDR_FROM_NEXT =>
    match i.payload with
    | none => none        -- dereferencing an empty optional
    | some str =>
      (stoul32 str).map fun w =>
        [if reg1 = 0 then 0xe59f0000 else 0xe59f4000, 0xea000000, w]
  | .LDR_REG =>
    if reg1 = 0 then some [0xe5900000]
    else if reg1 = 4 then some [0xe5944000]
    else none
  | .PUSH_REG =>
    match reg1 with
    | 0 => some [0xe52d0004]
    | 1 => some [0xe52d1004]
    | 2 => some [0xe52d2004]
    | 3 => some [0xe52d3004]
    | 4 => some [0xe52d4004]
    | 5 => some [0xe52de004]
    | _ => none
  | .PUSH_MULT_REG =>
    match reg2 with
    | 1 => some [0xe92d0003]
    | 2 => some [0xe92d0007]
    | 3 => some [0xe92d000f]
    | _ => none
  | .WORD_DECL => some []   -- consumed by LDR_FROM_NEXT
  | .POP_REG =>
    match reg1 with
    | 0 => some [0xe49d0004]
    | 1 => some [0xe49d1004]
    | 2 => some [0xe49d2004]
    | 3 => some [0xe49d3004]
    | 4 => some [0xe49d4004]
    | _ => none
  | .POP_MULT_REG =>
    match reg2 with
    | 1 => some [0xe8bd0003]
    | 2 => some [0xe8bd0007]
    | 3 => some [0xe8bd000f]
    | 6 => if reg1 = 4 then some [0xe8bd8010] else none
    | _ => none

/-- The loop of `ARM_JIT_Compiler::GetCompiledBinary` (JIT_compiler.cpp:553-736):
translate the instruction list front to back, concatenating the words. -/
def GetCompiledBinary : List Instr → Option (List Nat)
  | [] => some []
  | i :: rest => do pure ((← translate i) ++ (← GetCompiledBinary rest))

/-- Whole pipeline from a parse tree to raw words, as run by
`jit_compile_expression_to_arm` (JIT_compiler.cpp:783-807). -/
def emitBinary (amap : String → Option Nat) (t : Node) : Option (List Nat) :=
  (compile amap t).bind GetCompiledBinary

theorem GetCompiledBinary_append (a b : List Instr) :
    GetCompiledBinary (a ++ b) =
      (GetCompiledBinary a).bind fun wa =>
        (GetCompiledBinary b).map fun wb => wa ++ wb := by
  induction a with
  | nil =>
    cases h : GetCompiledBinary b <;> simp [GetCompiledBinary, h, Option.bind]
  | cons i rest ih =>
    simp only [List.cons_append, GetCompiledBinary, List.append_eq]
    rw [ih]
    cases htr : translate i <;>
      cases hr : GetCompiledBinary rest <;>
        cases hb : GetCompiledBinary b <;>
          simp [htr, hr, hb, Option.bind, bind, List.append_assoc]

/-! ## The run-time environment and the meaning of a tree -/

/-- What the emitted code's surroundings provide at run time: the
memory words variables are read from, and the behaviour of external
functions reached through `blx` — the returned R0 and the values the
callee (free to clobber the AAPCS caller-saved registers) leaves in
R1–R3, all as functions of the callee address and the argument
registers R0–R3 at the call. -/
structure MachineEnv : Type where
  mem : Nat → Nat
  fnResult : Nat → Nat → Nat → Nat → Nat → Nat
  fnClob1 : Nat → Nat → Nat → Nat → Nat → Nat
  fnClob2 : Nat → Nat → Nat → Nat → Nat → Nat
  fnClob3 : Nat → Nat → Nat → Nat → Nat → Nat

mutual
/-- The mathematical value of a tree under wrap-around 32-bit
two's-complement arithmetic: constants are their parsed payloads,
variables the 32-bit word in memory at their bound address, `plus` /
`minus` / `product` wrap modulo `2 ^ 32` (subtraction as addition of
the two's complement), and a function node is the external function's
R0 result on its evaluated arguments (missing argument registers
zero). -/
def evalN (E : MachineEnv) (amap : String → Option Nat) : Node → Nat
  | .constant c => (stoul32 c).getD 0
  | .var v => E.mem ((amap v).getD 0) % 4294967296
  | .plus l r => (evalN E amap l + evalN E amap r) % 4294967296
  | .minus l r => (evalN E amap l + (4294967296 - evalN E amap r)) % 4294967296
  | .product l r => (evalN E amap l * evalN E amap r) % 4294967296
  | .function f args =>
    let vs := evalArgs E amap args
    E.fnResult ((amap f).getD 0)
      (vs.getD 0 0) (vs.getD 1 0) (vs.getD 2 0) (vs.getD 3 0) % 4294967296
/-- Values of an argument list, in source order. -/
def evalArgs (E : MachineEnv) (amap : String → Option Nat) : NodeList → List Nat
  | .nil => []
  | .cons a tl => evalN E amap a :: evalArgs E amap tl
end

mutual
/-- The hypotheses of the correctness claim, as a checkable predicate
on the tree: every constant payload parses and fits in 32 bits, every
variable and function name is bound in the directory to a 32-bit
address, and every function node has 1 to 4 children, as many as the
callee's arity. -/
def wfN (amap : String → Option Nat) (arity : String → Nat) : Node → Bool
  | .constant c => (stoul32 c).isSome
  | .var v =>
    match amap v with
    | some a => decide (a < 4294967296)
    | none => false
  | .plus l r => wfN amap arity l && wfN amap arity r
  | .minus l r => wfN amap arity l && wfN amap arity r
  | .product l r => wfN amap arity l && wfN amap arity r
  | .function f args =>
    (match amap f with
     | some a => decide (a < 4294967296)
     | none => false)
    && decide (1 ≤ lenL args) && decide (lenL args ≤ 4)
    && decide (lenL args = arity f)
    && wfArgs amap arity args
/-- Predicate `wfN` holding on every member of an argument list. -/
def wfArgs (amap : String → Option Nat) (arity : String → Nat) : NodeList → Bool
  | .nil => true
  | .cons a tl => wfN amap arity a && wfArgs amap arity tl
end

theorem evalN_lt (E : MachineEnv) (amap : String → Option Nat) (t : Node) :
    evalN E amap t < 4294967296 := by
  cases t with
  | constant c =>
    unfold evalN
    cases h : stoul32 c with
    | none => simp [Option.getD]
    | some v => simpa [Option.getD] using stoul32_lt h
  | var v => exact Nat.mod_lt _ (by norm_num)
  | plus l r => exact Nat.mod_lt _ (by norm_num)
  | minus l r => exact Nat.mod_lt _ (by norm_num)
  | product l r => exact Nat.mod_lt _ (by norm_num)
  | function f args => exact Nat.mod_lt _ (by norm_num)

theorem evalArgs_lt (E : MachineEnv) (amap : String → Option Nat) :
    ∀ l : NodeList, ∀ v ∈ evalArgs E amap l, v < 4294967296
  | .nil => by simp [evalArgs]
  | .cons a tl => by
    intro v hv
    rw [evalArgs, List.mem_cons] at hv
    rcases hv with h | h
    · subst h; exact evalN_lt E amap a
    · exact evalArgs_lt E amap tl v h

theorem evalArgs_length (E : MachineEnv) (amap : String → Option Nat) :
    ∀ l : NodeList, (evalArgs E amap l).length = lenL l
  | .nil => rfl
  | .cons a tl => by
    rw [evalArgs, List.length_cons, lenL, evalArgs_length E amap tl]

/-! ## Per-node intermediate sequences, as the specification tables them

`specSeq` is the table of §4.2.2 read off directly: the instruction
run each node kind appends after its children, concatenated in
depth-first post-order. It is compared with the source-translated
`compile_` below. -/

mutual
/-- The per-node table: Constant, Variable, the three arithmetic rows,
and the Function row with its reversed `POP_REG` run. -/
def specSeq (amap : String → Option Nat) : Node → List Instr
  | .constant c =>
    [⟨.LDR_FROM_NEXT, some ARM_R.R0, none, some c⟩,
     ⟨.WORD_DECL, none, none, some c⟩,
     ⟨.PUSH_REG, some ARM_R.R0, none, none⟩]
  | .var v =>
    [⟨.LDR_FROM_NEXT, some ARM_R.R0, none, some (renderAddr ((amap v).getD 0))⟩,
     ⟨.WORD_DECL, none, none, some (renderAddr ((amap v).getD 0))⟩,
     ⟨.LDR_REG, some ARM_R.R0, some ARM_R.R0, none⟩,
     ⟨.PUSH_REG, some ARM_R.R0, none, none⟩]
  | .plus l r =>
    specSeq amap l ++ specSeq amap r ++
    [⟨.POP_MULT_REG, some ARM_R.R0, some ARM_R.R1, none⟩,
     ⟨.ADD, some ARM_R.R0, some ARM_R.R1, none⟩,
     ⟨.PUSH_REG, some ARM_R.R0, none, none⟩]
  | .minus l r =>
    specSeq amap l ++ specSeq amap r ++
    [⟨.POP_MULT_REG, some ARM_R.R0, some ARM_R.R1, none⟩,
     ⟨.SUB, some ARM_R.R0, some ARM_R.R1, none⟩,
     ⟨.PUSH_REG, some ARM_R.R0, none, none⟩]
  | .product l r =>
    specSeq amap l ++ specSeq amap r ++
    [⟨.POP_MULT_REG, some ARM_R.R0, some ARM_R.R1, none⟩,
     ⟨.MUL, some ARM_R.R0, some ARM_R.R1, none⟩,
     ⟨.PUSH_REG, some ARM_R.R0, none, none⟩]
  | .function f args =>
    specSeqArgs amap args ++ popRegs (lenL args) ++
    [⟨.LDR_FROM_NEXT, some ARM_R.R4, none, some (renderAddr ((amap f).getD 0))⟩,
     ⟨.WORD_DECL, none, none, some (renderAddr ((amap f).getD 0))⟩,
     ⟨.BLX, some ARM_R.R4, none, none⟩,
     ⟨.PUSH_REG, some ARM_R.R0, none, none⟩]
/-- Post-order concatenation over an argument list. -/
def specSeqArgs (amap : String → Option Nat) : NodeList → List Instr
  | .nil => []
  | .cons a tl => specSeq amap a ++ specSeqArgs amap tl
end

mutual
/-- The conditions under which the emitter's walk of a node completes:
every name is bound (`std::map::at` does not throw) and every function
node has at least one argument (the `assert` holds). -/
def namesBound (amap : String → Option Nat) : Node → Bool
  | .constant _ => true
  | .var v => (amap v).isSome
  | .plus l r => namesBound amap l && namesBound amap r
  | .minus l r => namesBound amap l && namesBound amap r
  | .product l r => namesBound amap l && namesBound amap r
  | .function f args =>
    (amap f).isSome && decide (lenL args ≠ 0) && namesBoundArgs amap args
/-- Predicate `namesBound` holding on every member of an argument list. -/
def namesBoundArgs (amap : String → Option Nat) : NodeList → Bool
  | .nil => true
  | .cons a tl => namesBound amap a && namesBoundArgs amap tl
end

mutual
theorem compile_eq_specSeq (amap : String → Option Nat) :
    ∀ t : Node, namesBound amap t = true → compile_ amap t = some (specSeq amap t)
  | .constant c, _ => rfl
  | .var v, h => by
    rw [namesBound, Option.isSome_iff_exists] at h
    obtain ⟨a, ha⟩ := h
    rw [compile_, specSeq, ha, Option.getD_some]
    simp [handle_variable]
  | .plus l r, h => by
    rw [namesBound, Bool.and_eq_true] at h
    rw [compile_, compile_eq_specSeq amap l h.1, compile_eq_specSeq amap r h.2]
    simp [specSeq, plus_tail, List.append_assoc]
  | .minus l r, h => by
    rw [namesBound, Bool.and_eq_true] at h
    rw [compile_, compile_eq_specSeq amap l h.1, compile_eq_specSeq amap r h.2]
    simp [specSeq, minus_tail, List.append_assoc]
  | .product l r, h => by
    rw [namesBound, Bool.and_eq_true] at h
    rw [compile_, compile_eq_specSeq amap l h.1, compile_eq_specSeq amap r h.2]
    simp [specSeq, product_tail, List.append_assoc]
  | .function f args, h => by
    rw [namesBound, Bool.and_eq_true, Bool.and_eq_true] at h
    obtain ⟨⟨hf, hn⟩, hargs⟩ := h
    rw [Option.isSome_iff_exists] at hf
    obtain ⟨a, ha⟩ := hf
    rw [compile_, compileArgs_eq_specSeqArgs amap args hargs]
    rw [decide_eq_true_eq] at hn
    simp [hn, ha, specSeq, function_tail, List.append_assoc]
theorem compileArgs_eq_specSeqArgs (amap : String → Option Nat) :
    ∀ l : NodeList, namesBoundArgs amap l = true →
      compileArgs amap l = some (specSeqArgs amap l)
  | .nil, _ => rfl
  | .cons a tl, h => by
    rw [namesBoundArgs, Bool.and_eq_true] at h
    rw [compileArgs, compile_eq_specSeq amap a h.1,
      compileArgs_eq_specSeqArgs amap tl h.2]
    rfl
end

/-! ## A word-granular A32 machine

The registers the emitted code touches, a full-descending stack
(`stack`, head = top of stack, the word SP points at), and the program
counter as a word index into the emitted stream. Each A32 word the
translator can produce is given its architectural meaning at word
granularity: `ldr rX, [pc]` reads the word two slots ahead (the ARM
pipeline makes `[pc]` the LDR's address + 8), `b +0` branches two
slots ahead, `blx r4` is the atomic oracle call of `MachineEnv`
(result in R0, R1–R3 caller-saved, LR set to the return slot), and
`pop {r4, pc}` loads R4 and jumps to the popped address. Registers are
32 bits: every write reduces `% 2 ^ 32`. An unknown word, a stack
underflow or running off the stream is a stuck machine (`none`). -/

structure MachineState : Type where
  r0 : Nat
  r1 : Nat
  r2 : Nat
  r3 : Nat
  r4 : Nat
  lr : Nat
  pc : Nat
  stack : List Nat

/-- One instruction of the emitted vocabulary, executed at `s.pc`. -/
def step (E : MachineEnv) (code : List Nat) (s : MachineState) : Option MachineState :=
  match code.get? s.pc with
  | none => none
  | some w =>
    if w = 0xe52de004 then      -- push {lr}
      some { s with stack := s.lr % 4294967296 :: s.stack, pc := s.pc + 1 }
    else if w = 0xe52d4004 then -- push {r4}
      some { s with stack := s.r4 % 4294967296 :: s.stack, pc := s.pc + 1 }
    else if w = 0xe52d0004 then -- push {r0}
      some { s with stack := s.r0 % 4294967296 :: s.stack, pc := s.pc + 1 }
    else if w = 0xe52d1004 then -- push {r1}
      some { s with stack := s.r1 % 4294967296 :: s.stack, pc := s.pc + 1 }
    else if w = 0xe52d2004 then -- push {r2}
      some { s with stack := s.r2 % 4294967296 :: s.stack, pc := s.pc + 1 }
    else if w = 0xe52d3004 then -- push {r3}
      some { s with stack := s.r3 % 4294967296 :: s.stack, pc := s.pc + 1 }
    else if w = 0xe49d0004 then -- pop {r0}
      match s.stack with
      | [] => none
      | v :: rest => some { s with r0 := v % 4294967296, pc := s.pc + 1, stack := rest }
    else if w = 0xe49d1004 then -- pop {r1}
      match s.stack with
      | [] => none
      | v :: rest => some { s with r1 := v % 4294967296, pc := s.pc + 1, stack := rest }
    else if w = 0xe49d2004 then -- pop {r2}
      match s.stack with
      | [] => none
      | v :: rest => some { s with r2 := v % 4294967296, pc := s.pc + 1, stack := rest }
    else if w = 0xe49d3004 then -- pop {r3}
      match s.stack with
      | [] => none
      | v :: rest => some { s with r3 := v % 4294967296, pc := s.pc + 1, stack := rest }
    else if w = 0xe49d4004 then -- pop {r4}
      match s.stack with
      | [] => none
      | v :: rest => some { s with r4 := v % 4294967296, pc := s.pc + 1, stack := rest }
    else if w = 0xe8bd0003 then -- pop {r0, r1} : r0 from the top (lower address)
      match s.stack with
      | v0 :: v1 :: rest =>
        some { s with r0 := v0 % 4294967296, r1 := v1 % 4294967296,
                      pc := s.pc + 1, stack := rest }
      | _ => none
    else if w = 0xe8bd0007 then -- pop {r0-r2}
      match s.stack with
      | v0 :: v1 :: v2 :: rest =>
        some { s with r0 := v0 % 4294967296, r1 := v1 % 4294967296,
                      r2 := v2 % 4294967296, pc := s.pc + 1, stack := rest }
      | _ => none
    else if w = 0xe8bd000f then -- pop {r0-r3}
      match s.stack with
      | v0 :: v1 :: v2 :: v3 :: rest =>
        some { s with r0 := v0 % 4294967296, r1 := v1 % 4294967296,
                      r2 := v2 % 4294967296, r3 := v3 % 4294967296,
                      pc := s.pc + 1, stack := rest }
      | _ => none
    else if w = 0xe8bd8010 then -- pop {r4, pc} : return
      match s.stack with
      | v0 :: v1 :: rest =>
        some { s with r4 := v0 % 4294967296, pc := v1 % 4294967296, stack := rest }
      | _ => none
    else if w = 0xe59f0000 then -- ldr r0, [pc] : the word two slots ahead
      match code.get? (s.pc + 2) with
      | none => none
      | some x => some { s with r0 := x % 4294967296, pc := s.pc + 1 }
    else if w = 0xe59f4000 then -- ldr r4, [pc]
      match code.get? (s.pc + 2) with
      | none => none
      | some x => some { s with r4 := x % 4294967296, pc := s.pc + 1 }
    else if w = 0xea000000 then -- b +0 : skip the next word
      some { s with pc := s.pc + 2 }
    else if w = 0xe5900000 then -- ldr r0, [r0]
      some { s with r0 := E.mem s.r0 % 4294967296, pc := s.pc + 1 }
    else if w = 0xe5944000 then -- ldr r4, [r4]
      some { s with r4 := E.mem s.r4 % 4294967296, pc := s.pc + 1 }
    else if w = 0xe0810000 then -- add r0, r1, r0
      some { s with r0 := (s.r1 + s.r0) % 4294967296, pc := s.pc + 1 }
    else if w = 0xe0410000 then -- sub r0, r1, r0
      some { s with r0 := (s.r1 + (4294967296 - s.r0 % 4294967296)) % 4294967296,
                    pc := s.pc + 1 }
    else if w = 0xe0000091 then -- mul r0, r1, r0
      some { s with r0 := (s.r1 * s.r0) % 4294967296, pc := s.pc + 1 }
    else if w = 0xe12fff34 then -- blx r4 : the oracle call
      some { s with
        r0 := E.fnResult s.r4 s.r0 s.r1 s.r2 s.r3 % 4294967296,
        r1 := E.fnClob1 s.r4 s.r0 s.r1 s.r2 s.r3 % 4294967296,
        r2 := E.fnClob2 s.r4 s.r0 s.r1 s.r2 s.r3 % 4294967296,
        r3 := E.fnClob3 s.r4 s.r0 s.r1 s.r2 s.r3 % 4294967296,
        lr := s.pc + 1, pc := s.pc + 1 }
    else none

/-- Run of `k` machine instructions in sequence. -/
def steps (E : MachineEnv) (code : List Nat) : Nat → MachineState → Option MachineState
  | 0, s => some s
  | k + 1, s => (step E code s).bind (steps E code k)

theorem steps_cons {E : MachineEnv} {code : List Nat} {k : Nat}
    {s s1 s2 : MachineState} (h1 : step E code s = some s1)
    (h2 : steps E code k s1 = some s2) : steps E code (k + 1) s = some s2 := by
  rw [steps, h1, Option.some_bind, h2]

theorem steps_add {E : MachineEnv} {code : List Nat} {k1 k2 : Nat}
    {s s1 s2 : MachineState} (h1 : steps E code k1 s = some s1)
    (h2 : steps E code k2 s1 = some s2) : steps E code (k1 + k2) s = some s2 := by
  induction k1 generalizing s with
  | zero =>
    rw [steps] at h1
    cases h1
    rw [Nat.zero_add]
    exact h2
  | succ k ih =>
    rw [steps] at h1
    rcases hstep : step E code s with _ | sm
    · rw [hstep] at h1; cases h1
    · rw [hstep, Option.some_bind] at h1
      have := ih h1
      rw [Nat.succ_add]
      exact steps_cons hstep this

/-- Looking a word up in a stream known to decompose as
`pre ++ (ws ++ post)` at an offset inside `ws`. -/
theorem code_lookup (code pre ws post : List Nat)
    (hcode : code = pre ++ (ws ++ post)) (j w : Nat) (hj : ws.get? j = some w)
    (n : Nat) (hn : n = pre.length + j) : code.get? n = some w := by
  subst hcode
  subst hn
  have hjlt : j < ws.length := List.get?_eq_some.1 hj |>.1
  rw [List.get?_append_right (Nat.le_add_right _ _), Nat.add_sub_cancel_left,
    List.get?_append hjlt]
  exact hj

/-! Single-step characterizations, one per emitted word. -/

theorem step_pushLR {E : MachineEnv} {code : List Nat} {s : MachineState}
    (h : code.get? s.pc = some 0xe52de004) :
    step E code s =
      some { s with stack := s.lr % 4294967296 :: s.stack, pc := s.pc + 1 } := by
  unfold step
  rw [h]
  simp

theorem step_pushR4 {E : MachineEnv} {code : List Nat} {s : MachineState}
    (h : code.get? s.pc = some 0xe52d4004) :
    step E code s =
      some { s with stack := s.r4 % 4294967296 :: s.stack, pc := s.pc + 1 } := by
  unfold step
  rw [h]
  simp

theorem step_pushR0 {E : MachineEnv} {code : List Nat} {s : MachineState}
    (h : code.get? s.pc = some 0xe52d0004) :
    step E code s =
      some { s with stack := s.r0 % 4294967296 :: s.stack, pc := s.pc + 1 } := by
  unfold step
  rw [h]
  simp

theorem step_popR0 {E : MachineEnv} {code : List Nat} {s : MachineState}
    {v : Nat} {rest : List Nat} (h : code.get? s.pc = some 0xe49d0004)
    (hs : s.stack = v :: rest) :
    step E code s =
      some { s with r0 := v % 4294967296, pc := s.pc + 1, stack := rest } := by
  unfold step
  rw [h, hs]
  simp

theorem step_popR1 {E : MachineEnv} {code : List Nat} {s : MachineState}
    {v : Nat} {rest : List Nat} (h : code.get? s.pc = some 0xe49d1004)
    (hs : s.stack = v :: rest) :
    step E code s =
      some { s with r1 := v % 4294967296, pc := s.pc + 1, stack := rest } := by
  unfold step
  rw [h, hs]
  simp

theorem step_popR2 {E : MachineEnv} {code : List Nat} {s : MachineState}
    {v : Nat} {rest : List Nat} (h : code.get? s.pc = some 0xe49d2004)
    (hs : s.stack = v :: rest) :
    step E code s =
      some { s with r2 := v % 4294967296, pc := s.pc + 1, stack := rest } := by
  unfold step
  rw [h, hs]
  simp

theorem step_popR3 {E : MachineEnv} {code : List Nat} {s : MachineState}
    {v : Nat} {rest : List Nat} (h : code.get? s.pc = some 0xe49d3004)
    (hs : s.stack = v :: rest) :
    step E code s =
      some { s with r3 := v % 4294967296, pc := s.pc + 1, stack := rest } := by
  unfold step
  rw [h, hs]
  simp

theorem step_popR4PC {E : MachineEnv} {code : List Nat} {s : MachineState}
    {v0 v1 : Nat} {rest : List Nat} (h : code.get? s.pc = some 0xe8bd8010)
    (hs : s.stack = v0 :: v1 :: rest) :
    step E code s =
      some { s with r4 := v0 % 4294967296, pc := v1 % 4294967296, stack := rest } := by
  unfold step
  rw [h, hs]
  simp

theorem step_popMult01 {E : MachineEnv} {code : List Nat} {s : MachineState}
    {v0 v1 : Nat} {rest : List Nat} (h : code.get? s.pc = some 0xe8bd0003)
    (hs : s.stack = v0 :: v1 :: rest) :
    step E code s =
      some { s with r0 := v0 % 4294967296, r1 := v1 % 4294967296,
                    pc := s.pc + 1, stack := rest } := by
  unfold step
  rw [h, hs]
  simp

theorem step_ldrR0PC {E : MachineEnv} {code : List Nat} {s : MachineState}
    {x : Nat} (h : code.get? s.pc = some 0xe59f0000)
    (hx : code.get? (s.pc + 2) = some x) :
    step E code s = some { s with r0 := x % 4294967296, pc := s.pc + 1 } := by
  unfold step
  rw [h, hx]
  simp

theorem step_ldrR4PC {E : MachineEnv} {code : List Nat} {s : MachineState}
    {x : Nat} (h : code.get? s.pc = some 0xe59f4000)
    (hx : code.get? (s.pc + 2) = some x) :
    step E code s = some { s with r4 := x % 4294967296, pc := s.pc + 1 } := by
  unfold step
  rw [h, hx]
  simp

theorem step_branch {E : MachineEnv} {code : List Nat} {s : MachineState}
    (h : code.get? s.pc = some 0xea000000) :
    step E code s = some { s with pc := s.pc + 2 } := by
  unfold step
  rw [h]
  simp

theorem step_ldrR0R0 {E : MachineEnv} {code : List Nat} {s : MachineState}
    (h : code.get? s.pc = some 0xe5900000) :
    step E code s =
      some { s with r0 := E.mem s.r0 % 4294967296, pc := s.pc + 1 } := by
  unfold step
  rw [h]
  simp

theorem step_add {E : MachineEnv} {code : List Nat} {s : MachineState}
    (h : code.get? s.pc = some 0xe0810000) :
    step E code s =
      some { s with r0 := (s.r1 + s.r0) % 4294967296, pc := s.pc + 1 } := by
  unfold step
  rw [h]
  simp

theorem step_sub {E : MachineEnv} {code : List Nat} {s : MachineState}
    (h : code.get? s.pc = some 0xe0410000) :
    step E code s =
      some { s with r0 := (s.r1 + (4294967296 - s.r0 % 4294967296)) % 4294967296,
                    pc := s.pc + 1 } := by
  unfold step
  rw [h]
  simp

theorem step_mul {E : MachineEnv} {code : List Nat} {s : MachineState}
    (h : code.get? s.pc = some 0xe0000091) :
    step E code s =
      some { s with r0 := (s.r1 * s.r0) % 4294967296, pc := s.pc + 1 } := by
  unfold step
  rw [h]
  simp

theorem step_blx {E : MachineEnv} {code : List Nat} {s : MachineState}
    (h : code.get? s.pc = some 0xe12fff34) :
    step E code s =
      some { s with
        r0 := E.fnResult s.r4 s.r0 s.r1 s.r2 s.r3 % 4294967296,
        r1 := E.fnClob1 s.r4 s.r0 s.r1 s.r2 s.r3 % 4294967296,
        r2 := E.fnClob2 s.r4 s.r0 s.r1 s.r2 s.r3 % 4294967296,
        r3 := E.fnClob3 s.r4 s.r0 s.r1 s.r2 s.r3 % 4294967296,
        lr := s.pc + 1, pc := s.pc + 1 } := by
  unfold step
  rw [h]
  simp

/-! ## Execution of emitted code

`ExecSpec E ws v` says: placed anywhere in a larger stream, the word
run `ws` executes from its first word to its end, leaving `v` pushed
on the stack and everything below untouched. `ExecSpecL` is the same
for a concatenation of runs pushing a list of values (last value on
top). -/

def ExecSpec (E : MachineEnv) (ws : List Nat) (val : Nat) : Prop :=
  ∀ pre post (s : MachineState), s.pc = pre.length →
    ∃ k s2, steps E (pre ++ (ws ++ post)) k s = some s2 ∧
      s2.pc = pre.length + ws.length ∧ s2.stack = val :: s.stack

def ExecSpecL (E : MachineEnv) (ws : List Nat) (vals : List Nat) : Prop :=
  ∀ pre post (s : MachineState), s.pc = pre.length →
    ∃ k s2, steps E (pre ++ (ws ++ post)) k s = some s2 ∧
      s2.pc = pre.length + ws.length ∧ s2.stack = vals.reverse ++ s.stack

theorem exec_const (E : MachineEnv) {w : Nat} (hw : w < 4294967296) :
    ExecSpec E [0xe59f0000, 0xea000000, w, 0xe52d0004] w := by
  intro pre post s hpc
  rcases s with ⟨r0v, r1v, r2v, r3v, r4v, lrv, pcv, stk⟩
  dsimp only at hpc
  subst hpc
  set ws : List Nat := [0xe59f0000, 0xea000000, w, 0xe52d0004] with hws
  set code := pre ++ (ws ++ post) with hcode
  have l0 : code.get? pre.length = some 0xe59f0000 :=
    code_lookup code pre ws post hcode 0 0xe59f0000 rfl pre.length (by omega)
  have l1 : code.get? (pre.length + 1) = some 0xea000000 :=
    code_lookup code pre ws post hcode 1 0xea000000 rfl (pre.length + 1) rfl
  have l2 : code.get? (pre.length + 2) = some w :=
    code_lookup code pre ws post hcode 2 w rfl (pre.length + 2) rfl
  have l3 : code.get? (pre.length + 3) = some 0xe52d0004 :=
    code_lookup code pre ws post hcode 3 0xe52d0004 rfl (pre.length + 3) rfl
  have e1 : step E code ⟨r0v, r1v, r2v, r3v, r4v, lrv, pre.length, stk⟩ =
      some ⟨w % 4294967296, r1v, r2v, r3v, r4v, lrv, pre.length + 1, stk⟩ :=
    step_ldrR0PC l0 l2
  have e2 : step E code ⟨w % 4294967296, r1v, r2v, r3v, r4v, lrv, pre.length + 1, stk⟩ =
      some ⟨w % 4294967296, r1v, r2v, r3v, r4v, lrv, pre.length + 3, stk⟩ :=
    step_branch l1
  have e3 : step E code ⟨w % 4294967296, r1v, r2v, r3v, r4v, lrv, pre.length + 3, stk⟩ =
      some ⟨w % 4294967296, r1v, r2v, r3v, r4v, lrv, pre.length + 4,
            w % 4294967296 % 4294967296 :: stk⟩ :=
    step_pushR0 l3
  refine ⟨3, _, steps_cons e1 (steps_cons e2 (steps_cons e3 rfl)), ?_, ?_⟩
  · rfl
  · simp [Nat.mod_eq_of_lt hw]

theorem exec_var (E : MachineEnv) {a : Nat} (ha : a < 4294967296) :
    ExecSpec E [0xe59f0000, 0xea000000, a, 0xe5900000, 0xe52d0004]
      (E.mem a % 4294967296) := by
  intro pre post s hpc
  rcases s with ⟨r0v, r1v, r2v, r3v, r4v, lrv, pcv, stk⟩
  dsimp only at hpc
  subst hpc
  set ws : List Nat := [0xe59f0000, 0xea000000, a, 0xe5900000, 0xe52d0004] with hws
  set code := pre ++ (ws ++ post) with hcode
  have l0 : code.get? pre.length = some 0xe59f0000 :=
    code_lookup code pre ws post hcode 0 0xe59f0000 rfl pre.length (by omega)
  have l1 : code.get? (pre.length + 1) = some 0xea000000 :=
    code_lookup code pre ws post hcode 1 0xea000000 rfl (pre.length + 1) rfl
  have l2 : code.get? (pre.length + 2) = some a :=
    code_lookup code pre ws post hcode 2 a rfl (pre.length + 2) rfl
  have l3 : code.get? (pre.length + 3) = some 0xe5900000 :=
    code_lookup code pre ws post hcode 3 0xe5900000 rfl (pre.length + 3) rfl
  have l4 : code.get? (pre.length + 4) = some 0xe52d0004 :=
    code_lookup code pre ws post hcode 4 0xe52d0004 rfl (pre.length + 4) rfl
  have e1 : step E code ⟨r0v, r1v, r2v, r3v, r4v, lrv, pre.length, stk⟩ =
      some ⟨a % 4294967296, r1v, r2v, r3v, r4v, lrv, pre.length + 1, stk⟩ :=
    step_ldrR0PC l0 l2
  have e2 : step E code ⟨a % 4294967296, r1v, r2v, r3v, r4v, lrv, pre.length + 1, stk⟩ =
      some ⟨a % 4294967296, r1v, r2v, r3v, r4v, lrv, pre.length + 3, stk⟩ :=
    step_branch l1
  have e3 : step E code ⟨a % 4294967296, r1v, r2v, r3v, r4v, lrv, pre.length + 3, stk⟩ =
      some ⟨E.mem (a % 4294967296) % 4294967296, r1v, r2v, r3v, r4v, lrv,
            pre.length + 4, stk⟩ :=
    step_ldrR0R0 l3
  have e4 : step E code ⟨E.mem (a % 4294967296) % 4294967296, r1v, r2v, r3v, r4v, lrv,
      pre.length + 4, stk⟩ =
      some ⟨E.mem (a % 4294967296) % 4294967296, r1v, r2v, r3v, r4v, lrv,
            pre.length + 5,
            E.mem (a % 4294967296) % 4294967296 % 4294967296 :: stk⟩ :=
    step_pushR0 l4
  refine ⟨4, _, steps_cons e1 (steps_cons e2 (steps_cons e3 (steps_cons e4 rfl))), ?_, ?_⟩
  · rfl
  · simp [Nat.mod_eq_of_lt ha, Nat.mod_mod_of_dvd]

theorem exec_add (E : MachineEnv) {ws1 ws2 : List Nat} {v1 v2 : Nat}
    (h1 : ExecSpec E ws1 v1) (h2 : ExecSpec E ws2 v2)
    (hv1 : v1 < 4294967296) (hv2 : v2 < 4294967296) :
    ExecSpec E (ws1 ++ (ws2 ++ [0xe8bd0003, 0xe0810000, 0xe52d0004]))
      ((v1 + v2) % 4294967296) := by
  intro pre post s hpc
  have hassoc :
      pre ++ ((ws1 ++ (ws2 ++ [0xe8bd0003, 0xe0810000, 0xe52d0004])) ++ post) =
      pre ++ (ws1 ++ (ws2 ++ ([0xe8bd0003, 0xe0810000, 0xe52d0004] ++ post))) := by
    simp [List.append_assoc]
  rw [hassoc]
  obtain ⟨k1, sA, e1, hpcA, hstA⟩ :=
    h1 pre (ws2 ++ ([0xe8bd0003, 0xe0810000, 0xe52d0004] ++ post)) s hpc
  obtain ⟨k2, sB, e2, hpcB, hstB⟩ :=
    h2 (pre ++ ws1) ([0xe8bd0003, 0xe0810000, 0xe52d0004] ++ post) sA
      (by rw [List.length_append]; exact hpcA)
  rw [List.append_assoc] at e2
  rw [hstA] at hstB
  have hpcB' : sB.pc = pre.length + ws1.length + ws2.length := by
    rw [hpcB]; simp [List.length_append]
  set code := pre ++ (ws1 ++ (ws2 ++ ([0xe8bd0003, 0xe0810000, 0xe52d0004] ++ post)))
    with hcode
  have hcode2 : code =
      (pre ++ (ws1 ++ ws2)) ++ ([0xe8bd0003, 0xe0810000, 0xe52d0004] ++ post) := by
    simp [hcode, List.append_assoc]
  have l0 : code.get? (pre.length + ws1.length + ws2.length) = some 0xe8bd0003 :=
    code_lookup code (pre ++ (ws1 ++ ws2)) [0xe8bd0003, 0xe0810000, 0xe52d0004] post
      hcode2 0 0xe8bd0003 rfl (pre.length + ws1.length + ws2.length)
      (by simp [List.length_append]; omega)
  have l1 : code.get? (pre.length + ws1.length + ws2.length + 1) = some 0xe0810000 :=
    code_lookup code (pre ++ (ws1 ++ ws2)) [0xe8bd0003, 0xe0810000, 0xe52d0004] post
      hcode2 1 0xe0810000 rfl (pre.length + ws1.length + ws2.length + 1)
      (by simp [List.length_append]; omega)
  have l2 : code.get? (pre.length + ws1.length + ws2.length + 2) = some 0xe52d0004 :=
    code_lookup code (pre ++ (ws1 ++ ws2)) [0xe8bd0003, 0xe0810000, 0xe52d0004] post
      hcode2 2 0xe52d0004 rfl (pre.length + ws1.length + ws2.length + 2)
      (by simp [List.length_append]; omega)
  have l0' : code.get? sB.pc = some 0xe8bd0003 := by rw [hpcB']; exact l0
  have l1' : code.get? (sB.pc + 1) = some 0xe0810000 := by rw [hpcB']; exact l1
  have l2' : code.get? (sB.pc + 1 + 1) = some 0xe52d0004 := by
    rw [hpcB']; exact l2
  have e3 : step E code sB =
      some ⟨v2 % 4294967296, v1 % 4294967296, sB.r2, sB.r3, sB.r4, sB.lr,
            sB.pc + 1, s.stack⟩ :=
    step_popMult01 l0' hstB
  have e4 : step E code ⟨v2 % 4294967296, v1 % 4294967296, sB.r2, sB.r3, sB.r4, sB.lr,
      sB.pc + 1, s.stack⟩ =
      some ⟨(v1 % 4294967296 + v2 % 4294967296) % 4294967296, v1 % 4294967296,
            sB.r2, sB.r3, sB.r4, sB.lr, sB.pc + 1 + 1, s.stack⟩ :=
    step_add l1'
  have e5 : step E code ⟨(v1 % 4294967296 + v2 % 4294967296) % 4294967296,
      v1 % 4294967296, sB.r2, sB.r3, sB.r4, sB.lr, sB.pc + 1 + 1, s.stack⟩ =
      some ⟨(v1 % 4294967296 + v2 % 4294967296) % 4294967296, v1 % 4294967296,
            sB.r2, sB.r3, sB.r4, sB.lr, sB.pc + 1 + 1 + 1,
            (v1 % 4294967296 + v2 % 4294967296) % 4294967296 % 4294967296 :: s.stack⟩ :=
    step_pushR0 l2'
  refine ⟨k1 + (k2 + 3), _,
    steps_add e1 (steps_add e2 (steps_cons e3 (steps_cons e4 (steps_cons e5 rfl)))),
    ?_, ?_⟩
  · show sB.pc + 1 + 1 + 1 =
      pre.length + (ws1 ++ (ws2 ++ [0xe8bd0003, 0xe0810000, 0xe52d0004])).length
    simp only [List.length_append, List.length_cons, List.length_nil]
    omega
  · show (v1 % 4294967296 + v2 % 4294967296) % 4294967296 % 4294967296 :: s.stack =
      (v1 + v2) % 4294967296 :: s.stack
    rw [Nat.mod_eq_of_lt hv1, Nat.mod_eq_of_lt hv2, Nat.mod_mod_of_dvd _ dvd_rfl]

theorem exec_sub (E : MachineEnv) {ws1 ws2 : List Nat} {v1 v2 : Nat}
    (h1 : ExecSpec E ws1 v1) (h2 : ExecSpec E ws2 v2)
    (hv1 : v1 < 4294967296) (hv2 : v2 < 4294967296) :
    ExecSpec E (ws1 ++ (ws2 ++ [0xe8bd0003, 0xe0410000, 0xe52d0004]))
      ((v1 + (4294967296 - v2)) % 4294967296) := by
  intro pre post s hpc
  have hassoc :
      pre ++ ((ws1 ++ (ws2 ++ [0xe8bd0003, 0xe0410000, 0xe52d0004])) ++ post) =
      pre ++ (ws1 ++ (ws2 ++ ([0xe8bd0003, 0xe0410000, 0xe52d0004] ++ post))) := by
    simp [List.append_assoc]
  rw [hassoc]
  obtain ⟨k1, sA, e1, hpcA, hstA⟩ :=
    h1 pre (ws2 ++ ([0xe8bd0003, 0xe0410000, 0xe52d0004] ++ post)) s hpc
  obtain ⟨k2, sB, e2, hpcB, hstB⟩ :=
    h2 (pre ++ ws1) ([0xe8bd0003, 0xe0410000, 0xe52d0004] ++ post) sA
      (by rw [List.length_append]; exact hpcA)
  rw [List.append_assoc] at e2
  rw [hstA] at hstB
  have hpcB' : sB.pc = pre.length + ws1.length + ws2.length := by
    rw [hpcB]; simp [List.length_append]
  set code := pre ++ (ws1 ++ (ws2 ++ ([0xe8bd0003, 0xe0410000, 0xe52d0004] ++ post)))
    with hcode
  have hcode2 : code =
      (pre ++ (ws1 ++ ws2)) ++ ([0xe8bd0003, 0xe0410000, 0xe52d0004] ++ post) := by
    simp [hcode, List.append_assoc]
  have l0 : code.get? (pre.length + ws1.length + ws2.length) = some 0xe8bd0003 :=
    code_lookup code (pre ++ (ws1 ++ ws2)) [0xe8bd0003, 0xe0410000, 0xe52d0004] post
      hcode2 0 0xe8bd0003 rfl (pre.length + ws1.length + ws2.length)
      (by simp [List.length_append]; omega)
  have l1 : code.get? (pre.length + ws1.length + ws2.length + 1) = some 0xe0410000 :=
    code_lookup code (pre ++ (ws1 ++ ws2)) [0xe8bd0003, 0xe0410000, 0xe52d0004] post
      hcode2 1 0xe0410000 rfl (pre.length + ws1.length + ws2.length + 1)
      (by simp [List.length_append]; omega)
  have l2 : code.get? (pre.length + ws1.length + ws2.length + 2) = some 0xe52d0004 :=
    code_lookup code (pre ++ (ws1 ++ ws2)) [0xe8bd0003, 0xe0410000, 0xe52d0004] post
      hcode2 2 0xe52d0004 rfl (pre.length + ws1.length + ws2.length + 2)
      (by simp [List.length_append]; omega)
  have l0' : code.get? sB.pc = some 0xe8bd0003 := by rw [hpcB']; exact l0
  have l1' : code.get? (sB.pc + 1) = some 0xe0410000 := by rw [hpcB']; exact l1
  have l2' : code.get? (sB.pc + 1 + 1) = some 0xe52d0004 := by
    rw [hpcB']; exact l2
  have e3 : step E code sB =
      some ⟨v2 % 4294967296, v1 % 4294967296, sB.r2, sB.r3, sB.r4, sB.lr,
            sB.pc + 1, s.stack⟩ :=
    step_popMult01 l0' hstB
  have e4 : step E code ⟨v2 % 4294967296, v1 % 4294967296, sB.r2, sB.r3, sB.r4, sB.lr,
      sB.pc + 1, s.stack⟩ =
      some ⟨(v1 % 4294967296 + (4294967296 - v2 % 4294967296 % 4294967296)) % 4294967296,
            v1 % 4294967296, sB.r2, sB.r3, sB.r4, sB.lr, sB.pc + 1 + 1, s.stack⟩ :=
    step_sub l1'
  have e5 : step E code ⟨(v1 % 4294967296 +
      (4294967296 - v2 % 4294967296 % 4294967296)) % 4294967296,
      v1 % 4294967296, sB.r2, sB.r3, sB.r4, sB.lr, sB.pc + 1 + 1, s.stack⟩ =
      some ⟨(v1 % 4294967296 + (4294967296 - v2 % 4294967296 % 4294967296)) % 4294967296,
            v1 % 4294967296, sB.r2, sB.r3, sB.r4, sB.lr, sB.pc + 1 + 1 + 1,
            (v1 % 4294967296 + (4294967296 - v2 % 4294967296 % 4294967296)) % 4294967296
              % 4294967296 :: s.stack⟩ :=
    step_pushR0 l2'
  refine ⟨k1 + (k2 + 3), _,
    steps_add e1 (steps_add e2 (steps_cons e3 (steps_cons e4 (steps_cons e5 rfl)))),
    ?_, ?_⟩
  · show sB.pc + 1 + 1 + 1 =
      pre.length + (ws1 ++ (ws2 ++ [0xe8bd0003, 0xe0410000, 0xe52d0004])).length
    simp only [List.length_append, List.length_cons, List.length_nil]
    omega
  · show (v1 % 4294967296 + (4294967296 - v2 % 4294967296 % 4294967296)) % 4294967296
        % 4294967296 :: s.stack =
      (v1 + (4294967296 - v2)) % 4294967296 :: s.stack
    rw [Nat.mod_eq_of_lt hv1, Nat.mod_eq_of_lt hv2, Nat.mod_eq_of_lt hv2,
      Nat.mod_mod_of_dvd _ dvd_rfl]

theorem exec_mul (E : MachineEnv) {ws1 ws2 : List Nat} {v1 v2 : Nat}
    (h1 : ExecSpec E ws1 v1) (h2 : ExecSpec E ws2 v2)
    (hv1 : v1 < 4294967296) (hv2 : v2 < 4294967296) :
    ExecSpec E (ws1 ++ (ws2 ++ [0xe8bd0003, 0xe0000091, 0xe52d0004]))
      ((v1 * v2) % 4294967296) := by
  intro pre post s hpc
  have hassoc :
      pre ++ ((ws1 ++ (ws2 ++ [0xe8bd0003, 0xe0000091, 0xe52d0004])) ++ post) =
      pre ++ (ws1 ++ (ws2 ++ ([0xe8bd0003, 0xe0000091, 0xe52d0004] ++ post))) := by
    simp [List.append_assoc]
  rw [hassoc]
  obtain ⟨k1, sA, e1, hpcA, hstA⟩ :=
    h1 pre (ws2 ++ ([0xe8bd0003, 0xe0000091, 0xe52d0004] ++ post)) s hpc
  obtain ⟨k2, sB, e2, hpcB, hstB⟩ :=
    h2 (pre ++ ws1) ([0xe8bd0003, 0xe0000091, 0xe52d0004] ++ post) sA
      (by rw [List.length_append]; exact hpcA)
  rw [List.append_assoc] at e2
  rw [hstA] at hstB
  have hpcB' : sB.pc = pre.length + ws1.length + ws2.length := by
    rw [hpcB]; simp [List.length_append]
  set code := pre ++ (ws1 ++ (ws2 ++ ([0xe8bd0003, 0xe0000091, 0xe52d0004] ++ post)))
    with hcode
  have hcode2 : code =
      (pre ++ (ws1 ++ ws2)) ++ ([0xe8bd0003, 0xe0000091, 0xe52d0004] ++ post) := by
    simp [hcode, List.append_assoc]
  have l0 : code.get? (pre.length + ws1.length + ws2.length) = some 0xe8bd0003 :=
    code_lookup code (pre ++ (ws1 ++ ws2)) [0xe8bd0003, 0xe0000091, 0xe52d0004] post
      hcode2 0 0xe8bd0003 rfl (pre.length + ws1.length + ws2.length)
      (by simp [List.length_append]; omega)
  have l1 : code.get? (pre.length + ws1.length + ws2.length + 1) = some 0xe0000091 :=
    code_lookup code (pre ++ (ws1 ++ ws2)) [0xe8bd0003, 0xe0000091, 0xe52d0004] post
      hcode2 1 0xe0000091 rfl (pre.length + ws1.length + ws2.length + 1)
      (by simp [List.length_append]; omega)
  have l2 : code.get? (pre.length + ws1.length + ws2.length + 2) = some 0xe52d0004 :=
    code_lookup code (pre ++ (ws1 ++ ws2)) [0xe8bd0003, 0xe0000091, 0xe52d0004] post
      hcode2 2 0xe52d0004 rfl (pre.length + ws1.length + ws2.length + 2)
      (by simp [List.length_append]; omega)
  have l0' : code.get? sB.pc = some 0xe8bd0003 := by rw [hpcB']; exact l0
  have l1' : code.get? (sB.pc + 1) = some 0xe0000091 := by rw [hpcB']; exact l1
  have l2' : code.get? (sB.pc + 1 + 1) = some 0xe52d0004 := by
    rw [hpcB']; exact l2
  have e3 : step E code sB =
      some ⟨v2 % 4294967296, v1 % 4294967296, sB.r2, sB.r3, sB.r4, sB.lr,
            sB.pc + 1, s.stack⟩ :=
    step_popMult01 l0' hstB
  have e4 : step E code ⟨v2 % 4294967296, v1 % 4294967296, sB.r2, sB.r3, sB.r4, sB.lr,
      sB.pc + 1, s.stack⟩ =
      some ⟨(v1 % 4294967296 * (v2 % 4294967296)) % 4294967296, v1 % 4294967296,
            sB.r2, sB.r3, sB.r4, sB.lr, sB.pc + 1 + 1, s.stack⟩ :=
    step_mul l1'
  have e5 : step E code ⟨(v1 % 4294967296 * (v2 % 4294967296)) % 4294967296,
      v1 % 4294967296, sB.r2, sB.r3, sB.r4, sB.lr, sB.pc + 1 + 1, s.stack⟩ =
      some ⟨(v1 % 4294967296 * (v2 % 4294967296)) % 4294967296, v1 % 4294967296,
            sB.r2, sB.r3, sB.r4, sB.lr, sB.pc + 1 + 1 + 1,
            (v1 % 4294967296 * (v2 % 4294967296)) % 4294967296 % 4294967296 :: s.stack⟩ :=
    step_pushR0 l2'
  refine ⟨k1 + (k2 + 3), _,
    steps_add e1 (steps_add e2 (steps_cons e3 (steps_cons e4 (steps_cons e5 rfl)))),
    ?_, ?_⟩
  · show sB.pc + 1 + 1 + 1 =
      pre.length + (ws1 ++ (ws2 ++ [0xe8bd0003, 0xe0000091, 0xe52d0004])).length
    simp only [List.length_append, List.length_cons, List.length_nil]
    omega
  · show (v1 % 4294967296 * (v2 % 4294967296)) % 4294967296 % 4294967296 :: s.stack =
      (v1 * v2) % 4294967296 :: s.stack
    rw [Nat.mod_eq_of_lt hv1, Nat.mod_eq_of_lt hv2, Nat.mod_mod_of_dvd _ dvd_rfl]

theorem execSpecL_nil (E : MachineEnv) : ExecSpecL E [] [] := by
  intro pre post s hpc
  refine ⟨0, s, rfl, ?_, ?_⟩
  · simpa using hpc
  · simp

theorem execSpecL_cons (E : MachineEnv) {ws wsA : List Nat} {v : Nat} {vals : List Nat}
    (h : ExecSpec E ws v) (hA : ExecSpecL E wsA vals) :
    ExecSpecL E (ws ++ wsA) (v :: vals) := by
  intro pre post s hpc
  have hassoc : pre ++ ((ws ++ wsA) ++ post) = pre ++ (ws ++ (wsA ++ post)) := by
    simp [List.append_assoc]
  rw [hassoc]
  obtain ⟨k1, sA, e1, hpcA, hstA⟩ := h pre (wsA ++ post) s hpc
  obtain ⟨k2, sB, e2, hpcB, hstB⟩ :=
    hA (pre ++ ws) post sA (by rw [List.length_append]; exact hpcA)
  rw [List.append_assoc] at e2
  refine ⟨k1 + k2, sB, steps_add e1 e2, ?_, ?_⟩
  · rw [hpcB]
    simp only [List.length_append]
    omega
  · rw [hstB, hstA]
    simp

/-- The raw words of the translated `POP_REG` run `popRegs n` (for
`n ≤ 5`): `pop {r_i}` encodes as `0xe49d0004` with the register in
bits 12–15. -/
def popWords : Nat → List Nat
  | 0 => []
  | n + 1 => (0xe49d0004 + 4096 * n) :: popWords n

/-- Executing the three-word literal load of the callee address, the
indirect call and the result push: `ldr r4, [pc]; b +0; .word a;
blx r4; push {r0}`. -/
theorem exec_call_tail (E : MachineEnv) {a : Nat} (ha : a < 4294967296) :
    ∀ pre post (s : MachineState), s.pc = pre.length →
      ∃ k s2,
        steps E (pre ++ ([0xe59f4000, 0xea000000, a, 0xe12fff34, 0xe52d0004] ++ post))
          k s = some s2 ∧
        s2.pc = pre.length + 5 ∧
        s2.stack = E.fnResult a s.r0 s.r1 s.r2 s.r3 % 4294967296 :: s.stack := by
  intro pre post s hpc
  rcases s with ⟨r0v, r1v, r2v, r3v, r4v, lrv, pcv, stk⟩
  dsimp only at hpc
  subst hpc
  set ws : List Nat := [0xe59f4000, 0xea000000, a, 0xe12fff34, 0xe52d0004] with hws
  set code := pre ++ (ws ++ post) with hcode
  have l0 : code.get? pre.length = some 0xe59f4000 :=
    code_lookup code pre ws post hcode 0 0xe59f4000 rfl pre.length (by omega)
  have l1 : code.get? (pre.length + 1) = some 0xea000000 :=
    code_lookup code pre ws post hcode 1 0xea000000 rfl (pre.length + 1) rfl
  have l2 : code.get? (pre.length + 2) = some a :=
    code_lookup code pre ws post hcode 2 a rfl (pre.length + 2) rfl
  have l3 : code.get? (pre.length + 3) = some 0xe12fff34 :=
    code_lookup code pre ws post hcode 3 0xe12fff34 rfl (pre.length + 3) rfl
  have l4 : code.get? (pre.length + 4) = some 0xe52d0004 :=
    code_lookup code pre ws post hcode 4 0xe52d0004 rfl (pre.length + 4) rfl
  have e1 : step E code ⟨r0v, r1v, r2v, r3v, r4v, lrv, pre.length, stk⟩ =
      some ⟨r0v, r1v, r2v, r3v, a % 4294967296, lrv, pre.length + 1, stk⟩ :=
    step_ldrR4PC l0 l2
  have e2 : step E code ⟨r0v, r1v, r2v, r3v, a % 4294967296, lrv, pre.length + 1, stk⟩ =
      some ⟨r0v, r1v, r2v, r3v, a % 4294967296, lrv, pre.length + 3, stk⟩ :=
    step_branch l1
  have e3 : step E code ⟨r0v, r1v, r2v, r3v, a % 4294967296, lrv, pre.length + 3, stk⟩ =
      some ⟨E.fnResult (a % 4294967296) r0v r1v r2v r3v % 4294967296,
            E.fnClob1 (a % 4294967296) r0v r1v r2v r3v % 4294967296,
            E.fnClob2 (a % 4294967296) r0v r1v r2v r3v % 4294967296,
            E.fnClob3 (a % 4294967296) r0v r1v r2v r3v % 4294967296,
            a % 4294967296, pre.length + 3 + 1, pre.length + 3 + 1, stk⟩ :=
    step_blx l3
  have e4 : step E code ⟨E.fnResult (a % 4294967296) r0v r1v r2v r3v % 4294967296,
      E.fnClob1 (a % 4294967296) r0v r1v r2v r3v % 4294967296,
      E.fnClob2 (a % 4294967296) r0v r1v r2v r3v % 4294967296,
      E.fnClob3 (a % 4294967296) r0v r1v r2v r3v % 4294967296,
      a % 4294967296, pre.length + 3 + 1, pre.length + 3 + 1, stk⟩ =
      some ⟨E.fnResult (a % 4294967296) r0v r1v r2v r3v % 4294967296,
            E.fnClob1 (a % 4294967296) r0v r1v r2v r3v % 4294967296,
            E.fnClob2 (a % 4294967296) r0v r1v r2v r3v % 4294967296,
            E.fnClob3 (a % 4294967296) r0v r1v r2v r3v % 4294967296,
            a % 4294967296, pre.length + 3 + 1, pre.length + 3 + 1 + 1,
            E.fnResult (a % 4294967296) r0v r1v r2v r3v % 4294967296
              % 4294967296 :: stk⟩ :=
    step_pushR0 l4
  refine ⟨4, _, steps_cons e1 (steps_cons e2 (steps_cons e3 (steps_cons e4 rfl))), ?_, ?_⟩
  · rfl
  · show E.fnResult (a % 4294967296) r0v r1v r2v r3v % 4294967296 % 4294967296 :: stk =
      E.fnResult a r0v r1v r2v r3v % 4294967296 :: stk
    rw [Nat.mod_eq_of_lt ha, Nat.mod_mod_of_dvd _ dvd_rfl]

/-- Executing a function node's code after the arguments: the reversed
`pop {r_i}` run moves the `n` pushed argument values into R0–R_(n-1),
then the call tail runs; the external function sees the arguments in
R0–R_(n-1) per AAPCS (junk beyond, which `hres` makes irrelevant). -/
theorem exec_function (E : MachineEnv) {wsA : List Nat} {vs : List Nat} {a res : Nat}
    (hA : ExecSpecL E wsA vs) {n : Nat} (hn : vs.length = n)
    (h1 : 1 ≤ n) (h4 : n ≤ 4) (hvs : ∀ v ∈ vs, v < 4294967296)
    (ha : a < 4294967296)
    (hres : ∀ z0 z1 z2 z3 : Nat,
      (∀ i, i < n → List.getD [z0, z1, z2, z3] i 0 = List.getD vs i 0) →
      E.fnResult a z0 z1 z2 z3 = res) :
    ExecSpec E
      (wsA ++ (popWords n ++ [0xe59f4000, 0xea000000, a, 0xe12fff34, 0xe52d0004]))
      (res % 4294967296) := by
  intro pre post s hpc
  have hassoc :
      pre ++ ((wsA ++ (popWords n ++
        [0xe59f4000, 0xea000000, a, 0xe12fff34, 0xe52d0004])) ++ post) =
      pre ++ (wsA ++ (popWords n ++
        ([0xe59f4000, 0xea000000, a, 0xe12fff34, 0xe52d0004] ++ post))) := by
    simp [List.append_assoc]
  rw [hassoc]
  obtain ⟨k1, sA, e1, hpcA, hstA⟩ :=
    hA pre (popWords n ++
      ([0xe59f4000, 0xea000000, a, 0xe12fff34, 0xe52d0004] ++ post)) s hpc
  interval_cases n
  · -- one argument
    have hp : popWords 1 = [0xe49d0004] := by norm_num [popWords]
    rw [hp] at e1 ⊢
    rcases vs with _ | ⟨v0, vs1⟩
    · simp only [List.length_nil] at hn; omega
    rcases vs1 with _ | ⟨v1, vs2⟩
    swap
    · simp only [List.length_cons, List.length_nil] at hn; omega
    simp only [List.reverse_cons, List.reverse_nil, List.nil_append,
      List.cons_append] at hstA
    have hv0 : v0 < 4294967296 := hvs v0 (by simp)
    set code := pre ++ (wsA ++ ([0xe49d0004] ++
      ([0xe59f4000, 0xea000000, a, 0xe12fff34, 0xe52d0004] ++ post))) with hcode
    have hcodeP : code = (pre ++ wsA) ++ ([0xe49d0004] ++
        ([0xe59f4000, 0xea000000, a, 0xe12fff34, 0xe52d0004] ++ post)) := by
      simp [hcode, List.append_assoc]
    have lp0 : code.get? (pre.length + wsA.length) = some 0xe49d0004 :=
      code_lookup code (pre ++ wsA) [0xe49d0004]
        ([0xe59f4000, 0xea000000, a, 0xe12fff34, 0xe52d0004] ++ post) hcodeP
        0 0xe49d0004 rfl (pre.length + wsA.length) (by simp [List.length_append])
    have lp0' : code.get? sA.pc = some 0xe49d0004 := by rw [hpcA]; exact lp0
    have ep1 : step E code sA =
        some ⟨v0 % 4294967296, sA.r1, sA.r2, sA.r3, sA.r4, sA.lr,
              sA.pc + 1, s.stack⟩ :=
      step_popR0 lp0' hstA
    obtain ⟨k2, s2, e2, hpc2, hst2⟩ :=
      exec_call_tail E ha (pre ++ (wsA ++ [0xe49d0004])) post
        ⟨v0 % 4294967296, sA.r1, sA.r2, sA.r3, sA.r4, sA.lr, sA.pc + 1, s.stack⟩
        (by
          dsimp only
          rw [hpcA]
          simp only [List.length_append, List.length_cons, List.length_nil]
          omega)
    have hback : (pre ++ (wsA ++ [0xe49d0004])) ++
        ([0xe59f4000, 0xea000000, a, 0xe12fff34, 0xe52d0004] ++ post) = code := by
      simp [hcode, List.append_assoc]
    rw [hback] at e2
    dsimp only at hst2
    rw [Nat.mod_eq_of_lt hv0] at hst2
    rw [hres v0 sA.r1 sA.r2 sA.r3 (by intro i hi; interval_cases i; rfl)] at hst2
    refine ⟨k1 + (k2 + 1), s2, steps_add e1 (steps_cons ep1 e2), ?_, ?_⟩
    · rw [hpc2]
      simp only [List.length_append, List.length_cons, List.length_nil]
      omega
    · exact hst2
  · -- two arguments
    have hp : popWords 2 = [0xe49d1004, 0xe49d0004] := by norm_num [popWords]
    rw [hp] at e1 ⊢
    rcases vs with _ | ⟨v0, vs1⟩
    · simp only [List.length_nil] at hn; omega
    rcases vs1 with _ | ⟨v1, vs2⟩
    · simp only [List.length_cons, List.length_nil] at hn; omega
    rcases vs2 with _ | ⟨v2, vs3⟩
    swap
    · simp only [List.length_cons, List.length_nil] at hn; omega
    simp only [List.reverse_cons, List.reverse_nil, List.nil_append,
      List.cons_append, List.append_assoc, List.singleton_append] at hstA
    have hv0 : v0 < 4294967296 := hvs v0 (by simp)
    have hv1 : v1 < 4294967296 := hvs v1 (by simp)
    set code := pre ++ (wsA ++ ([0xe49d1004, 0xe49d0004] ++
      ([0xe59f4000, 0xea000000, a, 0xe12fff34, 0xe52d0004] ++ post))) with hcode
    have hcodeP : code = (pre ++ wsA) ++ ([0xe49d1004, 0xe49d0004] ++
        ([0xe59f4000, 0xea000000, a, 0xe12fff34, 0xe52d0004] ++ post)) := by
      simp [hcode, List.append_assoc]
    have lp0 : code.get? (pre.length + wsA.length) = some 0xe49d1004 :=
      code_lookup code (pre ++ wsA) [0xe49d1004, 0xe49d0004]
        ([0xe59f4000, 0xea000000, a, 0xe12fff34, 0xe52d0004] ++ post) hcodeP
        0 0xe49d1004 rfl (pre.length + wsA.length) (by simp [List.length_append])
    have lp1 : code.get? (pre.length + wsA.length + 1) = some 0xe49d0004 :=
      code_lookup code (pre ++ wsA) [0xe49d1004, 0xe49d0004]
        ([0xe59f4000, 0xea000000, a, 0xe12fff34, 0xe52d0004] ++ post) hcodeP
        1 0xe49d0004 rfl (pre.length + wsA.length + 1) (by simp [List.length_append])
    have lp0' : code.get? sA.pc = some 0xe49d1004 := by rw [hpcA]; exact lp0
    have lp1' : code.get? (sA.pc + 1) = some 0xe49d0004 := by rw [hpcA]; exact lp1
    have ep1 : step E code sA =
        some ⟨sA.r0, v1 % 4294967296, sA.r2, sA.r3, sA.r4, sA.lr,
              sA.pc + 1, v0 :: s.stack⟩ :=
      step_popR1 lp0' hstA
    have ep2 : step E code ⟨sA.r0, v1 % 4294967296, sA.r2, sA.r3, sA.r4, sA.lr,
        sA.pc + 1, v0 :: s.stack⟩ =
        some ⟨v0 % 4294967296, v1 % 4294967296, sA.r2, sA.r3, sA.r4, sA.lr,
              sA.pc + 1 + 1, s.stack⟩ :=
      step_popR0 lp1' rfl
    obtain ⟨k2, s2, e2, hpc2, hst2⟩ :=
      exec_call_tail E ha (pre ++ (wsA ++ [0xe49d1004, 0xe49d0004])) post
        ⟨v0 % 4294967296, v1 % 4294967296, sA.r2, sA.r3, sA.r4, sA.lr,
         sA.pc + 1 + 1, s.stack⟩
        (by
          dsimp only
          rw [hpcA]
          simp only [List.length_append, List.length_cons, List.length_nil]
          omega)
    have hback : (pre ++ (wsA ++ [0xe49d1004, 0xe49d0004])) ++
        ([0xe59f4000, 0xea000000, a, 0xe12fff34, 0xe52d0004] ++ post) = code := by
      simp [hcode, List.append_assoc]
    rw [hback] at e2
    dsimp only at hst2
    rw [Nat.mod_eq_of_lt hv0, Nat.mod_eq_of_lt hv1] at hst2
    rw [hres v0 v1 sA.r2 sA.r3
      (by intro i hi; interval_cases i <;> rfl)] at hst2
    refine ⟨k1 + (k2 + 1 + 1), s2,
      steps_add e1 (steps_cons ep1 (steps_cons ep2 e2)), ?_, ?_⟩
    · rw [hpc2]
      simp only [List.length_append, List.length_cons, List.length_nil]
      omega
    · exact hst2
  · -- three arguments
    have hp : popWords 3 = [0xe49d2004, 0xe49d1004, 0xe49d0004] := by
      norm_num [popWords]
    rw [hp] at e1 ⊢
    rcases vs with _ | ⟨v0, vs1⟩
    · simp only [List.length_nil] at hn; omega
    rcases vs1 with _ | ⟨v1, vs2⟩
    · simp only [List.length_cons, List.length_nil] at hn; omega
    rcases vs2 with _ | ⟨v2, vs3⟩
    · simp only [List.length_cons, List.length_nil] at hn; omega
    rcases vs3 with _ | ⟨v3, vs4⟩
    swap
    · simp only [List.length_cons, List.length_nil] at hn; omega
    simp only [List.reverse_cons, List.reverse_nil, List.nil_append,
      List.cons_append, List.append_assoc, List.singleton_append] at hstA
    have hv0 : v0 < 4294967296 := hvs v0 (by simp)
    have hv1 : v1 < 4294967296 := hvs v1 (by simp)
    have hv2 : v2 < 4294967296 := hvs v2 (by simp)
    set code := pre ++ (wsA ++ ([0xe49d2004, 0xe49d1004, 0xe49d0004] ++
      ([0xe59f4000, 0xea000000, a, 0xe12fff34, 0xe52d0004] ++ post))) with hcode
    have hcodeP : code = (pre ++ wsA) ++ ([0xe49d2004, 0xe49d1004, 0xe49d0004] ++
        ([0xe59f4000, 0xea000000, a, 0xe12fff34, 0xe52d0004] ++ post)) := by
      simp [hcode, List.append_assoc]
    have lp0 : code.get? (pre.length + wsA.length) = some 0xe49d2004 :=
      code_lookup code (pre ++ wsA) [0xe49d2004, 0xe49d1004, 0xe49d0004]
        ([0xe59f4000, 0xea000000, a, 0xe12fff34, 0xe52d0004] ++ post) hcodeP
        0 0xe49d2004 rfl (pre.length + wsA.length) (by simp [List.length_append])
    have lp1 : code.get? (pre.length + wsA.length + 1) = some 0xe49d1004 :=
      code_lookup code (pre ++ wsA) [0xe49d2004, 0xe49d1004, 0xe49d0004]
        ([0xe59f4000, 0xea000000, a, 0xe12fff34, 0xe52d0004] ++ post) hcodeP
        1 0xe49d1004 rfl (pre.length + wsA.length + 1) (by simp [List.length_append])
    have lp2 : code.get? (pre.length + wsA.length + 2) = some 0xe49d0004 :=
      code_lookup code (pre ++ wsA) [0xe49d2004, 0xe49d1004, 0xe49d0004]
        ([0xe59f4000, 0xea000000, a, 0xe12fff34, 0xe52d0004] ++ post) hcodeP
        2 0xe49d0004 rfl (pre.length + wsA.length + 2) (by simp [List.length_append])
    have lp0' : code.get? sA.pc = some 0xe49d2004 := by rw [hpcA]; exact lp0
    have lp1' : code.get? (sA.pc + 1) = some 0xe49d1004 := by rw [hpcA]; exact lp1
    have lp2' : code.get? (sA.pc + 1 + 1) = some 0xe49d0004 := by
      rw [hpcA]; exact lp2
    have ep1 : step E code sA =
        some ⟨sA.r0, sA.r1, v2 % 4294967296, sA.r3, sA.r4, sA.lr,
              sA.pc + 1, v1 :: (v0 :: s.stack)⟩ :=
      step_popR2 lp0' hstA
    have ep2 : step E code ⟨sA.r0, sA.r1, v2 % 4294967296, sA.r3, sA.r4, sA.lr,
        sA.pc + 1, v1 :: (v0 :: s.stack)⟩ =
        some ⟨sA.r0, v1 % 4294967296, v2 % 4294967296, sA.r3, sA.r4, sA.lr,
              sA.pc + 1 + 1, v0 :: s.stack⟩ :=
      step_popR1 lp1' rfl
    have ep3 : step E code ⟨sA.r0, v1 % 4294967296, v2 % 4294967296, sA.r3, sA.r4,
        sA.lr, sA.pc + 1 + 1, v0 :: s.stack⟩ =
        some ⟨v0 % 4294967296, v1 % 4294967296, v2 % 4294967296, sA.r3, sA.r4, sA.lr,
              sA.pc + 1 + 1 + 1, s.stack⟩ :=
      step_popR0 lp2' rfl
    obtain ⟨k2, s2, e2, hpc2, hst2⟩ :=
      exec_call_tail E ha (pre ++ (wsA ++ [0xe49d2004, 0xe49d1004, 0xe49d0004])) post
        ⟨v0 % 4294967296, v1 % 4294967296, v2 % 4294967296, sA.r3, sA.r4, sA.lr,
         sA.pc + 1 + 1 + 1, s.stack⟩
        (by
          dsimp only
          rw [hpcA]
          simp only [List.length_append, List.length_cons, List.length_nil]
          omega)
    have hback : (pre ++ (wsA ++ [0xe49d2004, 0xe49d1004, 0xe49d0004])) ++
        ([0xe59f4000, 0xea000000, a, 0xe12fff34, 0xe52d0004] ++ post) = code := by
      simp [hcode, List.append_assoc]
    rw [hback] at e2
    dsimp only at hst2
    rw [Nat.mod_eq_of_lt hv0, Nat.mod_eq_of_lt hv1, Nat.mod_eq_of_lt hv2] at hst2
    rw [hres v0 v1 v2 sA.r3
      (by intro i hi; interval_cases i <;> rfl)] at hst2
    refine ⟨k1 + (k2 + 1 + 1 + 1), s2,
      steps_add e1 (steps_cons ep1 (steps_cons ep2 (steps_cons ep3 e2))), ?_, ?_⟩
    · rw [hpc2]
      simp only [List.length_append, List.length_cons, List.length_nil]
      omega
    · exact hst2
  · -- four arguments
    have hp : popWords 4 = [0xe49d3004, 0xe49d2004, 0xe49d1004, 0xe49d0004] := by
      norm_num [popWords]
    rw [hp] at e1 ⊢
    rcases vs with _ | ⟨v0, vs1⟩
    · simp only [List.length_nil] at hn; omega
    rcases vs1 with _ | ⟨v1, vs2⟩
    · simp only [List.length_cons, List.length_nil] at hn; omega
    rcases vs2 with _ | ⟨v2, vs3⟩
    · simp only [List.length_cons, List.length_nil] at hn; omega
    rcases vs3 with _ | ⟨v3, vs4⟩
    · simp only [List.length_cons, List.length_nil] at hn; omega
    rcases vs4 with _ | ⟨v4, vs5⟩
    swap
    · simp only [List.length_cons, List.length_nil] at hn; omega
    simp only [List.reverse_cons, List.reverse_nil, List.nil_append,
      List.cons_append, List.append_assoc, List.singleton_append] at hstA
    have hv0 : v0 < 4294967296 := hvs v0 (by simp)
    have hv1 : v1 < 4294967296 := hvs v1 (by simp)
    have hv2 : v2 < 4294967296 := hvs v2 (by simp)
    have hv3 : v3 < 4294967296 := hvs v3 (by simp)
    set code := pre ++ (wsA ++ ([0xe49d3004, 0xe49d2004, 0xe49d1004, 0xe49d0004] ++
      ([0xe59f4000, 0xea000000, a, 0xe12fff34, 0xe52d0004] ++ post))) with hcode
    have hcodeP : code = (pre ++ wsA) ++
        ([0xe49d3004, 0xe49d2004, 0xe49d1004, 0xe49d0004] ++
        ([0xe59f4000, 0xea000000, a, 0xe12fff34, 0xe52d0004] ++ post)) := by
      simp [hcode, List.append_assoc]
    have lp0 : code.get? (pre.length + wsA.length) = some 0xe49d3004 :=
      code_lookup code (pre ++ wsA) [0xe49d3004, 0xe49d2004, 0xe49d1004, 0xe49d0004]
        ([0xe59f4000, 0xea000000, a, 0xe12fff34, 0xe52d0004] ++ post) hcodeP
        0 0xe49d3004 rfl (pre.length + wsA.length) (by simp [List.length_append])
    have lp1 : code.get? (pre.length + wsA.length + 1) = some 0xe49d2004 :=
      code_lookup code (pre ++ wsA) [0xe49d3004, 0xe49d2004, 0xe49d1004, 0xe49d0004]
        ([0xe59f4000, 0xea000000, a, 0xe12fff34, 0xe52d0004] ++ post) hcodeP
        1 0xe49d2004 rfl (pre.length + wsA.length + 1) (by simp [List.length_append])
    have lp2 : code.get? (pre.length + wsA.length + 2) = some 0xe49d1004 :=
      code_lookup code (pre ++ wsA) [0xe49d3004, 0xe49d2004, 0xe49d1004, 0xe49d0004]
        ([0xe59f4000, 0xea000000, a, 0xe12fff34, 0xe52d0004] ++ post) hcodeP
        2 0xe49d1004 rfl (pre.length + wsA.length + 2) (by simp [List.length_append])
    have lp3 : code.get? (pre.length + wsA.length + 3) = some 0xe49d0004 :=
      code_lookup code (pre ++ wsA) [0xe49d3004, 0xe49d2004, 0xe49d1004, 0xe49d0004]
        ([0xe59f4000, 0xea000000, a, 0xe12fff34, 0xe52d0004] ++ post) hcodeP
        3 0xe49d0004 rfl (pre.length + wsA.length + 3) (by simp [List.length_append])
    have lp0' : code.get? sA.pc = some 0xe49d3004 := by rw [hpcA]; exact lp0
    have lp1' : code.get? (sA.pc + 1) = some 0xe49d2004 := by rw [hpcA]; exact lp1
    have lp2' : code.get? (sA.pc + 1 + 1) = some 0xe49d1004 := by
      rw [hpcA]; exact lp2
    have lp3' : code.get? (sA.pc + 1 + 1 + 1) = some 0xe49d0004 := by
      rw [hpcA]; exact lp3
    have ep1 : step E code sA =
        some ⟨sA.r0, sA.r1, sA.r2, v3 % 4294967296, sA.r4, sA.lr,
              sA.pc + 1, v2 :: (v1 :: (v0 :: s.stack))⟩ :=
      step_popR3 lp0' hstA
    have ep2 : step E code ⟨sA.r0, sA.r1, sA.r2, v3 % 4294967296, sA.r4, sA.lr,
        sA.pc + 1, v2 :: (v1 :: (v0 :: s.stack))⟩ =
        some ⟨sA.r0, sA.r1, v2 % 4294967296, v3 % 4294967296, sA.r4, sA.lr,
              sA.pc + 1 + 1, v1 :: (v0 :: s.stack)⟩ :=
      step_popR2 lp1' rfl
    have ep3 : step E code ⟨sA.r0, sA.r1, v2 % 4294967296, v3 % 4294967296, sA.r4,
        sA.lr, sA.pc + 1 + 1, v1 :: (v0 :: s.stack)⟩ =
        some ⟨sA.r0, v1 % 4294967296, v2 % 4294967296, v3 % 4294967296, sA.r4, sA.lr,
              sA.pc + 1 + 1 + 1, v0 :: s.stack⟩ :=
      step_popR1 lp2' rfl
    have ep4 : step E code ⟨sA.r0, v1 % 4294967296, v2 % 4294967296, v3 % 4294967296,
        sA.r4, sA.lr, sA.pc + 1 + 1 + 1, v0 :: s.stack⟩ =
        some ⟨v0 % 4294967296, v1 % 4294967296, v2 % 4294967296, v3 % 4294967296,
              sA.r4, sA.lr, sA.pc + 1 + 1 + 1 + 1, s.stack⟩ :=
      step_popR0 lp3' rfl
    obtain ⟨k2, s2, e2, hpc2, hst2⟩ :=
      exec_call_tail E ha
        (pre ++ (wsA ++ [0xe49d3004, 0xe49d2004, 0xe49d1004, 0xe49d0004])) post
        ⟨v0 % 4294967296, v1 % 4294967296, v2 % 4294967296, v3 % 4294967296,
         sA.r4, sA.lr, sA.pc + 1 + 1 + 1 + 1, s.stack⟩
        (by
          dsimp only
          rw [hpcA]
          simp only [List.length_append, List.length_cons, List.length_nil]
          omega)
    have hback : (pre ++ (wsA ++ [0xe49d3004, 0xe49d2004, 0xe49d1004, 0xe49d0004])) ++
        ([0xe59f4000, 0xea000000, a, 0xe12fff34, 0xe52d0004] ++ post) = code := by
      simp [hcode, List.append_assoc]
    rw [hback] at e2
    dsimp only at hst2
    rw [Nat.mod_eq_of_lt hv0, Nat.mod_eq_of_lt hv1, Nat.mod_eq_of_lt hv2,
      Nat.mod_eq_of_lt hv3] at hst2
    rw [hres v0 v1 v2 v3
      (by intro i hi; interval_cases i <;> rfl)] at hst2
    refine ⟨k1 + (k2 + 1 + 1 + 1 + 1), s2,
      steps_add e1 (steps_cons ep1 (steps_cons ep2 (steps_cons ep3
        (steps_cons ep4 e2)))), ?_, ?_⟩
    · rw [hpc2]
      simp only [List.length_append, List.length_cons, List.length_nil]
      omega
    · exact hst2

/-- The AAPCS reading of the directory's functions: the R0 result of
the callee at address `a` bound to name `f` depends only on its first
`arity f` argument registers. -/
def FnOK (amap : String → Option Nat) (arity : String → Nat) (E : MachineEnv) : Prop :=
  ∀ f a, amap f = some a →
    ∀ x0 x1 x2 x3 y0 y1 y2 y3 : Nat,
      (∀ i, i < arity f →
        List.getD [x0, x1, x2, x3] i 0 = List.getD [y0, y1, y2, y3] i 0) →
      E.fnResult a x0 x1 x2 x3 = E.fnResult a y0 y1 y2 y3

theorem GCB_popRegs : ∀ n, n ≤ 5 → GetCompiledBinary (popRegs n) = some (popWords n) := by
  intro n hn
  interval_cases n <;> rfl

mutual
/-- Body of the compiler correctness induction: on a well-formed
subtree the emitter succeeds, the translator succeeds, and the
resulting word run executes to a push of the subtree's value. -/
theorem compile_correct (E : MachineEnv) (amap : String → Option Nat)
    (arity : String → Nat) (hF : FnOK amap arity E) :
    ∀ t : Node, wfN amap arity t = true →
      ∃ ins ws, compile_ amap t = some ins ∧ GetCompiledBinary ins = some ws ∧
        ExecSpec E ws (evalN E amap t)
  | .constant c, hwf => by
    simp only [wfN] at hwf
    rw [Option.isSome_iff_exists] at hwf
    obtain ⟨w, hw⟩ := hwf
    refine ⟨handle_const c, [0xe59f0000, 0xea000000, w, 0xe52d0004], rfl, ?_, ?_⟩
    · simp [handle_const, GetCompiledBinary, translate, ARM_R.R0, hw, Option.bind]
    · have h := exec_const E (stoul32_lt hw)
      simpa [evalN, hw] using h
  | .var v, hwf => by
    simp only [wfN] at hwf
    rcases ham : amap v with _ | a
    · rw [ham] at hwf; cases hwf
    · rw [ham] at hwf
      have ha : a < 4294967296 := of_decide_eq_true hwf
      refine ⟨handle_variable (renderAddr a),
        [0xe59f0000, 0xea000000, a, 0xe5900000, 0xe52d0004], ?_, ?_, ?_⟩
      · rw [compile_, ham]
      · simp [handle_variable, GetCompiledBinary, translate, ARM_R.R0,
          stoul32_renderAddr ha, Option.bind]
      · have h := exec_var E ha
        simpa [evalN, ham] using h
  | .plus l r, hwf => by
    simp only [wfN, Bool.and_eq_true] at hwf
    obtain ⟨insL, wsL, hcl, hbl, hel⟩ := compile_correct E amap arity hF l hwf.1
    obtain ⟨insR, wsR, hcr, hbr, her⟩ := compile_correct E amap arity hF r hwf.2
    have htail : GetCompiledBinary plus_tail =
        some [0xe8bd0003, 0xe0810000, 0xe52d0004] := rfl
    refine ⟨insL ++ insR ++ plus_tail,
      wsL ++ (wsR ++ [0xe8bd0003, 0xe0810000, 0xe52d0004]), ?_, ?_, ?_⟩
    · rw [compile_, hcl, hcr]; rfl
    · rw [GetCompiledBinary_append, GetCompiledBinary_append, hbl, hbr, htail]
      simp [Option.bind, List.append_assoc]
    · have h := exec_add E hel her (evalN_lt E amap l) (evalN_lt E amap r)
      simpa [evalN] using h
  | .minus l r, hwf => by
    simp only [wfN, Bool.and_eq_true] at hwf
    obtain ⟨insL, wsL, hcl, hbl, hel⟩ := compile_correct E amap arity hF l hwf.1
    obtain ⟨insR, wsR, hcr, hbr, her⟩ := compile_correct E amap arity hF r hwf.2
    have htail : GetCompiledBinary minus_tail =
        some [0xe8bd0003, 0xe0410000, 0xe52d0004] := rfl
    refine ⟨insL ++ insR ++ minus_tail,
      wsL ++ (wsR ++ [0xe8bd0003, 0xe0410000, 0xe52d0004]), ?_, ?_, ?_⟩
    · rw [compile_, hcl, hcr]; rfl
    · rw [GetCompiledBinary_append, GetCompiledBinary_append, hbl, hbr, htail]
      simp [Option.bind, List.append_assoc]
    · have h := exec_sub E hel her (evalN_lt E amap l) (evalN_lt E amap r)
      simpa [evalN] using h
  | .product l r, hwf => by
    simp only [wfN, Bool.and_eq_true] at hwf
    obtain ⟨insL, wsL, hcl, hbl, hel⟩ := compile_correct E amap arity hF l hwf.1
    obtain ⟨insR, wsR, hcr, hbr, her⟩ := compile_correct E amap arity hF r hwf.2
    have htail : GetCompiledBinary product_tail =
        some [0xe8bd0003, 0xe0000091, 0xe52d0004] := rfl
    refine ⟨insL ++ insR ++ product_tail,
      wsL ++ (wsR ++ [0xe8bd0003, 0xe0000091, 0xe52d0004]), ?_, ?_, ?_⟩
    · rw [compile_, hcl, hcr]; rfl
    · rw [GetCompiledBinary_append, GetCompiledBinary_append, hbl, hbr, htail]
      simp [Option.bind, List.append_assoc]
    · have h := exec_mul E hel her (evalN_lt E amap l) (evalN_lt E amap r)
      simpa [evalN] using h
  | .function f args, hwf => by
    simp only [wfN, Bool.and_eq_true] at hwf
    obtain ⟨⟨⟨⟨hfa, hge1⟩, hle4⟩, harity⟩, hargs⟩ := hwf
    rcases ham : amap f with _ | a
    · rw [ham] at hfa; cases hfa
    rw [ham] at hfa
    have ha : a < 4294967296 := of_decide_eq_true hfa
    have hge1' : 1 ≤ lenL args := of_decide_eq_true hge1
    have hle4' : lenL args ≤ 4 := of_decide_eq_true hle4
    have harity' : lenL args = arity f := of_decide_eq_true harity
    obtain ⟨insA, wsA, hca, hba, heA⟩ := compileArgs_correct E amap arity hF args hargs
    have htail : GetCompiledBinary (function_tail (renderAddr a)) =
        some [0xe59f4000, 0xea000000, a, 0xe12fff34, 0xe52d0004] := by
      simp [function_tail, GetCompiledBinary, translate, ARM_R.R4, ARM_R.R0,
        stoul32_renderAddr ha, Option.bind]
    refine ⟨insA ++ popRegs (lenL args) ++ function_tail (renderAddr a),
      wsA ++ (popWords (lenL args) ++
        [0xe59f4000, 0xea000000, a, 0xe12fff34, 0xe52d0004]), ?_, ?_, ?_⟩
    · rw [compile_, hca]
      have hne : ¬ lenL args = 0 := by omega
      simp [hne, ham]
    · rw [GetCompiledBinary_append, GetCompiledBinary_append, hba, htail,
        GCB_popRegs (lenL args) (by omega)]
      simp [Option.bind, List.append_assoc]
    · have hlen : (evalArgs E amap args).length = lenL args :=
        evalArgs_length E amap args
      have hres : ∀ z0 z1 z2 z3 : Nat,
          (∀ i, i < lenL args →
            List.getD [z0, z1, z2, z3] i 0 = List.getD (evalArgs E amap args) i 0) →
          E.fnResult a z0 z1 z2 z3 =
            E.fnResult a ((evalArgs E amap args).getD 0 0)
              ((evalArgs E amap args).getD 1 0) ((evalArgs E amap args).getD 2 0)
              ((evalArgs E amap args).getD 3 0) := by
        intro z0 z1 z2 z3 hz
        apply hF f a ham
        intro i hi
        have hin : i < lenL args := by omega
        rw [hz i hin]
        have hi4 : i < 4 := by omega
        interval_cases i <;> rfl
      have h := exec_function E heA hlen hge1' hle4' (evalArgs_lt E amap args) ha hres
      simpa [evalN, ham] using h
/-- The same over an argument list: the runs of the arguments execute
in order, pushing their values (last argument on top). -/
theorem compileArgs_correct (E : MachineEnv) (amap : String → Option Nat)
    (arity : String → Nat) (hF : FnOK amap arity E) :
    ∀ l : NodeList, wfArgs amap arity l = true →
      ∃ ins ws, compileArgs amap l = some ins ∧ GetCompiledBinary ins = some ws ∧
        ExecSpecL E ws (evalArgs E amap l)
  | .nil, _ => ⟨[], [], rfl, rfl, execSpecL_nil E⟩
  | .cons a tl, h => by
    simp only [wfArgs, Bool.and_eq_true] at h
    obtain ⟨ins1, ws1, hc1, hb1, he1⟩ := compile_correct E amap arity hF a h.1
    obtain ⟨ins2, ws2, hc2, hb2, he2⟩ := compileArgs_correct E amap arity hF tl h.2
    refine ⟨ins1 ++ ins2, ws1 ++ ws2, ?_, ?_, ?_⟩
    · rw [compileArgs, hc1, hc2]; rfl
    · rw [GetCompiledBinary_append, hb1, hb2]; rfl
    · have h := execSpecL_cons E he1 he2
      simpa [evalArgs] using h
end

/-- Whole-program correctness: on a well-formed tree, `compile` and
`GetCompiledBinary` succeed, and the emitted words, entered at their
first word with any link register, any R4 and any stack, run to the
return (`pop {r4, pc}` jumps to the entry LR) with R0 holding the
tree's value, R4 restored and the caller's stack intact. -/
theorem jit_program_correct (E : MachineEnv) (amap : String → Option Nat)
    (arity : String → Nat) (t : Node)
    (hwf : wfN amap arity t = true) (hF : FnOK amap arity E) :
    ∃ ins ws, compile amap t = some ins ∧ GetCompiledBinary ins = some ws ∧
      ∀ s : MachineState, s.pc = 0 → s.lr < 4294967296 → s.r4 < 4294967296 →
        ∃ k s2, steps E ws k s = some s2 ∧ s2.pc = s.lr ∧
          s2.r0 = evalN E amap t ∧ s2.r4 = s.r4 ∧ s2.stack = s.stack := by
  obtain ⟨insB, wsB, hcb, hbb, heb⟩ := compile_correct E amap arity hF t hwf
  have hh : GetCompiledBinary add_header = some [0xe52de004, 0xe52d4004] := rfl
  have hf : GetCompiledBinary add_footer = some [0xe49d0004, 0xe8bd8010] := rfl
  refine ⟨add_header ++ insB ++ add_footer,
    [0xe52de004, 0xe52d4004] ++ (wsB ++ [0xe49d0004, 0xe8bd8010]), ?_, ?_, ?_⟩
  · rw [compile, hcb]; rfl
  · rw [GetCompiledBinary_append, GetCompiledBinary_append, hh, hbb, hf]
    simp [Option.bind, List.append_assoc]
  · intro s hpc hlr hr4
    rcases s with ⟨r0v, r1v, r2v, r3v, r4v, lrv, pcv, stk⟩
    dsimp only at hpc hlr hr4 ⊢
    subst hpc
    set code := [0xe52de004, 0xe52d4004] ++ (wsB ++ [0xe49d0004, 0xe8bd8010])
      with hcode
    have l0 : code.get? 0 = some 0xe52de004 := rfl
    have l1 : code.get? 1 = some 0xe52d4004 := rfl
    have hm4 : r4v % 4294967296 = r4v := Nat.mod_eq_of_lt hr4
    have hmlr : lrv % 4294967296 = lrv := Nat.mod_eq_of_lt hlr
    have e1 : step E code ⟨r0v, r1v, r2v, r3v, r4v, lrv, 0, stk⟩ =
        some ⟨r0v, r1v, r2v, r3v, r4v, lrv, 1, lrv % 4294967296 :: stk⟩ :=
      step_pushLR l0
    have e2 : step E code ⟨r0v, r1v, r2v, r3v, r4v, lrv, 1,
        lrv % 4294967296 :: stk⟩ =
        some ⟨r0v, r1v, r2v, r3v, r4v, lrv, 2,
              r4v % 4294967296 :: (lrv % 4294967296 :: stk)⟩ :=
      step_pushR4 l1
    obtain ⟨k2, sB, e3, hpcB, hstB⟩ :=
      heb [0xe52de004, 0xe52d4004] [0xe49d0004, 0xe8bd8010]
        ⟨r0v, r1v, r2v, r3v, r4v, lrv, 2,
         r4v % 4294967296 :: (lrv % 4294967296 :: stk)⟩ rfl
    have hpcB' : sB.pc = 2 + wsB.length := by simpa using hpcB
    dsimp only at hstB
    rw [hm4, hmlr] at hstB
    have hcodeF : code = ([0xe52de004, 0xe52d4004] ++ wsB) ++
        ([0xe49d0004, 0xe8bd8010] ++ []) := by
      simp [hcode, List.append_assoc]
    have l2 : code.get? (2 + wsB.length) = some 0xe49d0004 :=
      code_lookup code ([0xe52de004, 0xe52d4004] ++ wsB) [0xe49d0004, 0xe8bd8010]
        [] hcodeF 0 0xe49d0004 rfl (2 + wsB.length)
        (by simp [List.length_append]; omega)
    have l3 : code.get? (2 + wsB.length + 1) = some 0xe8bd8010 :=
      code_lookup code ([0xe52de004, 0xe52d4004] ++ wsB) [0xe49d0004, 0xe8bd8010]
        [] hcodeF 1 0xe8bd8010 rfl (2 + wsB.length + 1)
        (by simp [List.length_append]; omega)
    have l2' : code.get? sB.pc = some 0xe49d0004 := by rw [hpcB']; exact l2
    have l3' : code.get? (sB.pc + 1) = some 0xe8bd8010 := by rw [hpcB']; exact l3
    have e4 : step E code sB =
        some ⟨evalN E amap t % 4294967296, sB.r1, sB.r2, sB.r3, sB.r4, sB.lr,
              sB.pc + 1, r4v :: (lrv :: stk)⟩ :=
      step_popR0 l2' hstB
    have e5 : step E code ⟨evalN E amap t % 4294967296, sB.r1, sB.r2, sB.r3, sB.r4,
        sB.lr, sB.pc + 1, r4v :: (lrv :: stk)⟩ =
        some ⟨evalN E amap t % 4294967296, sB.r1, sB.r2, sB.r3, r4v % 4294967296,
              sB.lr, lrv % 4294967296, stk⟩ :=
      step_popR4PC l3' rfl
    refine ⟨k2 + 2 + 1 + 1, _,
      steps_cons e1 (steps_cons e2 (steps_add e3 (steps_cons e4 (steps_cons e5 rfl)))),
      ?_, ?_, ?_, ?_⟩
    · exact hmlr
    · exact Nat.mod_eq_of_lt (evalN_lt E amap t)
    · exact hm4
    · rfl

/-! ## Prologue and epilogue words -/

theorem emit_prologue_epilogue (amap : String → Option Nat) (t : Node)
    {ins : List Instr} {ws : List Nat} (hc : compile amap t = some ins)
    (hb : GetCompiledBinary ins = some ws) :
    ws.take 2 = [0xe52de004, 0xe52d4004] ∧ 4 ≤ ws.length ∧
    ws.drop (ws.length - 2) = [0xe49d0004, 0xe8bd8010] := by
  rw [compile] at hc
  rcases hcb : compile_ amap t with _ | body
  · rw [hcb] at hc; cases hc
  rw [hcb, Option.map_some'] at hc
  have hins : ins = add_header ++ body ++ add_footer := by
    cases hc; rfl
  subst hins
  rw [GetCompiledBinary_append, GetCompiledBinary_append] at hb
  have hh : GetCompiledBinary add_header = some [0xe52de004, 0xe52d4004] := rfl
  have hf : GetCompiledBinary add_footer = some [0xe49d0004, 0xe8bd8010] := rfl
  rw [hh, hf] at hb
  rcases hgb : GetCompiledBinary body with _ | wsb
  · rw [hgb] at hb; simp [Option.bind] at hb
  rw [hgb] at hb
  simp only [Option.some_bind, Option.map_some] at hb
  have hws : ws = ([0xe52de004, 0xe52d4004] ++ wsb) ++ [0xe49d0004, 0xe8bd8010] := by
    cases hb; rfl
  subst hws
  refine ⟨rfl, ?_, ?_⟩
  · simp only [List.length_append, List.length_cons, List.length_nil]
    omega
  · have hlen : (([0xe52de004, 0xe52d4004] ++ wsb) ++
        [0xe49d0004, 0xe8bd8010] : List Nat).length - 2 =
        ([0xe52de004, 0xe52d4004] ++ wsb).length := by
      simp only [List.length_append, List.length_cons, List.length_nil]
      omega
    rw [hlen, List.drop_left]

/-! ## The arity cap

`handle_function` emits `POP_REG` for registers R_(n-1) down to R0.
`GetCompiledBinary` has translations for `POP_REG` R0–R4, so a call
with five arguments still translates (popping into R4); only from six
arguments up does the run contain `POP_REG` with register code 5,
whose translation is the `assert(false)` arm. -/

theorem GCB_none_of_mem {l : List Instr} {i : Instr} (hi : i ∈ l)
    (ht : translate i = none) : GetCompiledBinary l = none := by
  induction l with
  | nil => cases hi
  | cons j rest ih =>
    rcases List.mem_cons.1 hi with h | h
    · rw [GetCompiledBinary, ← h, ht]
      rfl
    · rw [GetCompiledBinary, ih h]
      cases translate j <;> rfl

theorem popReg5_mem_popRegs :
    ∀ n, 6 ≤ n → (⟨.POP_REG, some 5, none, none⟩ : Instr) ∈ popRegs n := by
  intro n
  induction n with
  | zero => intro h; omega
  | succ m ih =>
    intro h
    by_cases hm : m = 5
    · subst hm
      exact List.mem_cons_self _ _
    · exact List.mem_cons_of_mem _ (ih (by omega))

theorem GCB_popRegs_none {n : Nat} (h6 : 6 ≤ n) :
    GetCompiledBinary (popRegs n) = none :=
  GCB_none_of_mem (popReg5_mem_popRegs n h6) rfl

theorem function_over_five_args_fails (amap : String → Option Nat) (f : String)
    (args : NodeList) (h6 : 6 ≤ lenL args) :
    emitBinary amap (.function f args) = none := by
  rw [emitBinary]
  rcases hc : compile amap (.function f args) with _ | ins
  · rfl
  rw [compile] at hc
  rcases hcb : compile_ amap (.function f args) with _ | body
  · rw [hcb] at hc; cases hc
  rw [hcb, Option.map_some'] at hc
  have hins : ins = add_header ++ body ++ add_footer := by cases hc; rfl
  subst hins
  rw [compile_] at hcb
  rcases hca : compileArgs amap args with _ | argsCode
  · rw [hca] at hcb; cases hcb
  rw [hca] at hcb
  have hne : ¬ lenL args = 0 := by omega
  rcases ham : amap f with _ | a
  · rw [ham] at hcb
    simp only [Option.pure_def, Option.bind_some, hne, if_false] at hcb
    cases hcb
  rw [ham] at hcb
  simp only [Option.pure_def, Option.bind_some, hne, if_false] at hcb
  have hbody : body = argsCode ++ popRegs (lenL args) ++ function_tail (renderAddr a) := by
    cases hcb; rfl
  subst hbody
  have hpopn : GetCompiledBinary (popRegs (lenL args)) = none := GCB_popRegs_none h6
  have hmid : GetCompiledBinary (argsCode ++ popRegs (lenL args)) = none := by
    rw [GetCompiledBinary_append, hpopn]
    cases GetCompiledBinary argsCode <;> rfl
  have hbodynone : GetCompiledBinary
      (argsCode ++ popRegs (lenL args) ++ function_tail (renderAddr a)) = none := by
    rw [GetCompiledBinary_append, hmid]
    rfl
  rw [Option.some_bind, GetCompiledBinary_append, GetCompiledBinary_append,
    hbodynone]
  have hh : GetCompiledBinary add_header = some [0xe52de004, 0xe52d4004] := rfl
  rw [hh]
  rfl

/-! ## The `ParseConstant` acceptance boundary -/

theorem ParseConstant_boundary (s : String) (v : Nat)
    (hv : parseBaseList 10 s.data = some v) :
    (ParseConstant s = none ↔ 2 ^ 31 - 1 < v) ∧
    (v ≤ 2 ^ 31 - 1 → ParseConstant s = some ("0x" ++ hexStr v) ∧
      stoul32 ("0x" ++ hexStr v) = some v) := by
  constructor
  · rw [ParseConstant, hv]
    by_cases h : 2 ^ 31 - 1 < v <;> simp [h]
  · intro hle
    have hnot : ¬ 2 ^ 31 - 1 < v := by omega
    simp only [ParseConstant, hv, hnot, if_false]
    refine ⟨trivial, ?_⟩
    have hlt : v < 4294967296 := by omega
    exact stoul32_renderAddr hlt

/-! ## Concrete data for the witnesses -/

/-- A small directory: variable `x` at address 8, function `g` at
address 16. -/
def demoMap : String → Option Nat := fun name =>
  if name = "x" then some 8 else if name = "g" then some 16 else none

/-- Every directory function takes one argument. -/
def demoArity : String → Nat := fun _ => 1

/-- A run-time environment: address 8 holds 40, the function returns
its first argument plus one, clobbers are zero. -/
def demoEnv : MachineEnv where
  mem := fun a => if a = 8 then 40 else 0
  fnResult := fun _ z0 _ _ _ => z0 + 1
  fnClob1 := fun _ _ _ _ _ => 0
  fnClob2 := fun _ _ _ _ _ => 0
  fnClob3 := fun _ _ _ _ _ => 0

theorem demoFnOK : FnOK demoMap demoArity demoEnv := by
  intro f a hfa x0 x1 x2 x3 y0 y1 y2 y3 h
  have h0 : x0 = y0 := by simpa [List.getD] using h 0 (by norm_num [demoArity])
  simp [demoEnv, h0]

/-- The tree of `2 + x`. -/
def demoTree : Node := .plus (.constant ("0x2")) (.var ("x"))

/-- The tree of `g(x)`. -/
def demoCall : Node := .function ("g") (.cons (.var ("x")) .nil)

/-- Five constant arguments. -/
def fiveArgs : NodeList :=
  .cons (.constant ("0x1")) (.cons (.constant ("0x1")) (.cons (.constant ("0x1"))
    (.cons (.constant ("0x1")) (.cons (.constant ("0x1")) .nil))))

/-- Six constant arguments. -/
def sixArgs : NodeList := .cons (.constant ("0x1")) fiveArgs

/-! ## The claims -/

/-- Claim C1: for every AST in which every Constant fits in 32 bits,
every Function node has 1 to 4 children (matching the callee's AAPCS
arity), and every Variable and Function name is bound in the
directory, compilation and translation succeed, and executing the
emitted word stream as A32 code — variables read from their bound
addresses, functions called per AAPCS — terminates (reaches the
return address with the caller's stack restored) with R0 equal to the
value of the tree under wrap-around 32-bit two's-complement addition,
subtraction and multiplication. -/
theorem claim_C1 (E : MachineEnv) (amap : String → Option Nat)
    (arity : String → Nat) (t : Node)
    (hwf : wfN amap arity t = true) (hF : FnOK amap arity E) :
    ∃ ins ws, compile amap t = some ins ∧ GetCompiledBinary ins = some ws ∧
      ∀ s : MachineState, s.pc = 0 → s.lr < 4294967296 → s.r4 < 4294967296 →
        ∃ k s2, steps E ws k s = some s2 ∧ s2.pc = s.lr ∧
          s2.r0 = evalN E amap t ∧ s2.r4 = s.r4 ∧ s2.stack = s.stack :=
  jit_program_correct E amap arity t hwf hF

theorem claim_C1_witness :
    wfN demoMap demoArity demoTree = true ∧
    (∃ ins ws, compile demoMap demoTree = some ins ∧
      GetCompiledBinary ins = some ws ∧
      ∀ s : MachineState, s.pc = 0 → s.lr < 4294967296 → s.r4 < 4294967296 →
        ∃ k s2, steps demoEnv ws k s = some s2 ∧ s2.pc = s.lr ∧
          s2.r0 = evalN demoEnv demoMap demoTree ∧ s2.r4 = s.r4 ∧
          s2.stack = s.stack) :=
  ⟨rfl, claim_C1 demoEnv demoMap demoArity demoTree rfl demoFnOK⟩

/-- Claim C2: on every node the emitter walk appends exactly the
per-node table sequence — Constant: `LDR_FROM_NEXT R0 C; WORD_DECL C;
PUSH_REG R0`; Variable: the same with the bound address and a
dereference; Plus/Minus/Product: children then `POP_MULT_REG R0,R1;
ADD/SUB/MUL; PUSH_REG R0`; Function with `n` arguments: arguments,
`POP_REG` R_(n-1) down to R0, then `LDR_FROM_NEXT R4 addr; WORD_DECL
addr; BLX R4; PUSH_REG R0` — concatenated in depth-first post-order
(`specSeq`), whenever the walk completes (names bound, functions
non-nullary). -/
theorem claim_C2 (amap : String → Option Nat) (t : Node)
    (h : namesBound amap t = true) :
    compile_ amap t = some (specSeq amap t) :=
  compile_eq_specSeq amap t h

theorem claim_C2_witness :
    namesBound demoMap demoCall = true ∧
    compile_ demoMap demoCall = some (specSeq demoMap demoCall) :=
  ⟨rfl, claim_C2 demoMap demoCall rfl⟩

/-- Claim C3: whenever compilation and translation both succeed, the
emitted word stream starts with `0xE52DE004, 0xE52D4004`
(`push {lr}; push {r4}`) and ends with `0xE49D0004, 0xE8BD8010`
(`pop {r0}; pop {r4, pc}`). -/
theorem claim_C3 (amap : String → Option Nat) (t : Node)
    {ins : List Instr} {ws : List Nat} (hc : compile amap t = some ins)
    (hb : GetCompiledBinary ins = some ws) :
    ws.take 2 = [0xe52de004, 0xe52d4004] ∧ 4 ≤ ws.length ∧
    ws.drop (ws.length - 2) = [0xe49d0004, 0xe8bd8010] :=
  emit_prologue_epilogue amap t hc hb

theorem claim_C3_witness :
    compile demoMap (.constant ("0x2")) =
      some (add_header ++ handle_const ("0x2") ++ add_footer) ∧
    GetCompiledBinary (add_header ++ handle_const ("0x2") ++ add_footer) =
      some [0xe52de004, 0xe52d4004, 0xe59f0000, 0xea000000, 2, 0xe52d0004,
            0xe49d0004, 0xe8bd8010] ∧
    ([0xe52de004, 0xe52d4004, 0xe59f0000, 0xea000000, 2, 0xe52d0004,
      0xe49d0004, 0xe8bd8010] : List Nat).take 2 = [0xe52de004, 0xe52d4004] ∧
    4 ≤ ([0xe52de004, 0xe52d4004, 0xe59f0000, 0xea000000, 2, 0xe52d0004,
      0xe49d0004, 0xe8bd8010] : List Nat).length ∧
    ([0xe52de004, 0xe52d4004, 0xe59f0000, 0xea000000, 2, 0xe52d0004,
      0xe49d0004, 0xe8bd8010] : List Nat).drop
        (([0xe52de004, 0xe52d4004, 0xe59f0000, 0xea000000, 2, 0xe52d0004,
          0xe49d0004, 0xe8bd8010] : List Nat).length - 2) =
      [0xe49d0004, 0xe8bd8010] :=
  ⟨rfl, rfl, claim_C3 demoMap (.constant ("0x2")) rfl rfl⟩

/-- Claim C4 as stated is false: a Function node with exactly five
arguments IS translated to raw words — the `POP_REG` loop emits
`POP_REG R4`, which `GetCompiledBinary` supports (`0xE49D4004`), so
emission succeeds with no Internal-Consistency failure. -/
theorem claim_C4_counterexample :
    lenL fiveArgs = 5 ∧
    (emitBinary demoMap (.function ("g") fiveArgs)).isSome = true :=
  ⟨rfl, rfl⟩

/-- Claim C4, amended: for every Function node with SIX or more
arguments, emission fails — the `POP_REG` run contains register code
5, whose translation is the `assert(false)` arm, so no word stream is
produced; a five-argument node still translates (`POP_REG R4` is in
the table). -/
theorem claim_C4_amended (amap : String → Option Nat) (f : String)
    (args : NodeList) (h6 : 6 ≤ lenL args) :
    emitBinary amap (.function f args) = none :=
  function_over_five_args_fails amap f args h6

theorem claim_C4_amended_witness :
    6 ≤ lenL sixArgs ∧ emitBinary demoMap (.function ("g") sixArgs) = none :=
  ⟨by decide, claim_C4_amended demoMap ("g") sixArgs (by decide)⟩

/-- Claim C5 as stated is false: the decimal literal 2147483648 = 2^31
fits in 32 bits (is at most 2^32 - 1), yet `ParseConstant` rejects it:
`std::stoi` parses into a signed 32-bit `int` and throws beyond
`INT_MAX = 2^31 - 1`. -/
theorem claim_C5_counterexample :
    ParseConstant ("2147483648") = none ∧ (2147483648 : Nat) ≤ 2 ^ 32 - 1 :=
  ⟨rfl, by norm_num⟩

/-- Claim C5, amended: parsing an all-digit leaf fails with the
Constant-overflow error exactly when the decimal value exceeds
2^31 - 1 (`INT_MAX`, not 2^32 - 1); every literal up to 2^31 - 1 is
accepted and stored as a hexadecimal rendering that reads back
(`stoul`) to the same value. -/
theorem claim_C5_amended (s : String) (v : Nat)
    (hv : parseBaseList 10 s.data = some v) :
    (ParseConstant s = none ↔ 2 ^ 31 - 1 < v) ∧
    (v ≤ 2 ^ 31 - 1 → ParseConstant s = some ("0x" ++ hexStr v) ∧
      stoul32 ("0x" ++ hexStr v) = some v) :=
  ParseConstant_boundary s v hv

theorem claim_C5_amended_witness :
    parseBaseList 10 ("93").data = some 93 ∧
    ((ParseConstant ("93") = none ↔ 2 ^ 31 - 1 < 93) ∧
      (93 ≤ 2 ^ 31 - 1 → ParseConstant ("93") = some ("0x" ++ hexStr 93) ∧
        stoul32 ("0x" ++ hexStr 93) = some 93)) :=
  ⟨rfl, claim_C5_amended ("93") 93 rfl⟩

end JIT
